import Mathlib

/-!
Verification development for the video-transcoding backend
(`backend/routes/transcode.js`, the `/start`-based variant with
`/status/:id`, `/list` and `/presign-download/:id`).

The JavaScript route handlers are shallowly embedded as pure Lean
functions.  DynamoDB is modelled as a list of items (an item is an
association list of attribute name/value pairs); S3 and the external
`ffmpeg` / `ffprobe` processes are modelled through an explicit
environment record that decides the outcome of each external call.
JavaScript strings are Lean `String`s; numeric attribute values are
rationals (`Rat`), which cover the integers (sizes, progress) and the
fractional frame rate produced by the prober.
-/

set_option autoImplicit false
set_option maxRecDepth 16000

namespace Transcode

/-! ## JavaScript value helpers

JavaScript treats `undefined`, `null` and the empty string as falsy;
optional string-valued request fields are modelled as `Option String`
with `none` standing for `undefined`/`null`. -/

/-- Truthiness of an optional JavaScript string: `undefined`, `null` and
`""` are falsy. -/
def jsTruthy : Option String → Bool
  | none => false
  | some s => !s.isEmpty

/-- Model of the JavaScript idiom `x || d` for an optional string `x`
and a (truthy) string default `d`. -/
def jsStrOr (x : Option String) (d : String) : String :=
  match x with
  | none => d
  | some s => if s.isEmpty then d else s

/-- Model of the JavaScript idiom `a || b` on two optional strings
(the result is `none` when both are falsy). -/
def jsOrOpt (a b : Option String) : Option String :=
  if jsTruthy a then a else if jsTruthy b then b else none

/-! ## DynamoDB document model -/

/-- An attribute value of a DynamoDB document item: a string, a number
or `null`. -/
inductive AttrVal where
  | str (s : String)
  | num (q : Rat)
  | nul
  deriving DecidableEq, Repr

/-- A DynamoDB item: an association list from attribute names to
values (first binding wins on lookup; the operations below keep names
unique). -/
abbrev Item := List (String × AttrVal)

/-- A DynamoDB table: the list of its items.  The physical sort-key
ordering of DynamoDB is not modelled; no verified claim depends on the
order in which items are returned. -/
abbrev Table := List Item

/-- Set attribute `k` to `v`: replace the existing binding of `k`,
otherwise append a new binding (the semantics of a DynamoDB `SET`
action on a document item, whose attribute names are unique). -/
def setAttr : Item → String → AttrVal → Item
  | [], k, v => [(k, v)]
  | p :: tl, k, v => if p.1 == k then (k, v) :: tl else p :: setAttr tl k v

/-- Apply a list of `SET` actions in order. -/
def applyUpdates (it : Item) (sets : List (String × AttrVal)) : Item :=
  sets.foldl (fun acc p => setAttr acc p.1 p.2) it

@[simp] theorem applyUpdates_nil (it : Item) : applyUpdates it [] = it := rfl

@[simp] theorem applyUpdates_cons (it : Item) (p : String × AttrVal)
    (sets : List (String × AttrVal)) :
    applyUpdates it (p :: sets) = applyUpdates (setAttr it p.1 p.2) sets := rfl

@[simp] theorem lookup_setAttr_self (it : Item) (k : String) (v : AttrVal) :
    (setAttr it k v).lookup k = some v := by
  induction it with
  | nil => simp [setAttr, List.lookup]
  | cons hd tl ih =>
    by_cases hk : hd.1 = k
    · simp [setAttr, hk, List.lookup]
    · have hk' : (hd.1 == k) = false := by simpa using hk
      have hk'' : (k == hd.1) = false := by simpa using (Ne.symm hk)
      simp [setAttr, hk', List.lookup, hk'', ih]

theorem lookup_setAttr_ne (it : Item) (k k' : String) (v : AttrVal)
    (h : k' ≠ k) :
    (setAttr it k v).lookup k' = it.lookup k' := by
  induction it with
  | nil =>
    have h' : (k' == k) = false := by simpa using h
    simp [setAttr, List.lookup, h']
  | cons hd tl ih =>
    by_cases hk : hd.1 = k
    · have h1 : (hd.1 == k) = true := by simpa using hk
      have h2 : (k' == k) = false := by simpa using h
      have h3 : (k' == hd.1) = false := by simpa [hk] using h
      simp [setAttr, h1, List.lookup, h2, h3]
    · have h1 : (hd.1 == k) = false := by simpa using hk
      by_cases hk2 : k' = hd.1
      · simp [setAttr, h1, List.lookup, hk2]
      · have h2 : (k' == hd.1) = false := by simpa using hk2
        simp [setAttr, h1, List.lookup, h2, ih]

/-- A `SET` list whose action names all differ from `k` leaves the
binding of `k` unchanged. -/
theorem lookup_applyUpdates_of_not_mem (sets : List (String × AttrVal)) :
    ∀ (it : Item) (k : String), (∀ p ∈ sets, p.1 ≠ k) →
    (applyUpdates it sets).lookup k = it.lookup k := by
  induction sets with
  | nil => intro it k _; rfl
  | cons hd tl ih =>
    intro it k h
    rw [applyUpdates_cons, ih _ k (fun p hp => h p (List.mem_cons_of_mem _ hp))]
    exact lookup_setAttr_ne it hd.1 k hd.2 (Ne.symm (h hd (List.mem_cons_self hd tl)))

/-! ## Deployment configuration

The route module reads `S3_BUCKET`, `S3_PREFIX`, `DDB_TABLE` and
`QUT_USERNAME` from the process environment at load time; they are
modelled as an explicit configuration record (the table name is not
needed because a single table is modelled). -/

/-- Deployment configuration of `backend/routes/transcode.js`. -/
structure Config where
  s3Bucket : String
  s3Prefix : String
  fixedPkVal : String
  tmpDir : String

/-! ## Helper functions of the route module -/

/-- Identity claims attached to `req.user` by the auth middleware. -/
structure Claims where
  identityKey : Option String
  email : Option String

/-- Model of JavaScript `toLowerCase` (character-wise lowering, which
agrees with `String.toLower`); defined over the character list so that
it evaluates inside the kernel. -/
def jsToLower (s : String) : String := ⟨s.data.map Char.toLower⟩

/-- `guessExt`: `(fmt || 'mp4').toLowerCase()`. -/
def guessExt (fmt : Option String) : String := jsToLower (jsStrOr fmt "mp4")

/-- `ownerKeyFromReq`: `req.user?.identityKey || req.user?.email`,
lowercased; `none` models the thrown `Missing identity in token`. -/
def ownerKeyFromReq (user : Option Claims) : Option String :=
  match user with
  | none => none
  | some c => (jsOrOpt c.identityKey c.email).map jsToLower

/-- `(req.user?.email || '').toLowerCase() || null` from the `/start`
handler. -/
def ownerEmailFromReq (user : Option Claims) : Option String :=
  match user with
  | none => none
  | some c =>
    let e := jsToLower (jsStrOr c.email "")
    if e.isEmpty then none else some e

/-- `composeVideoId`: the composite sort key `ownerKey#id`. -/
def composeVideoId (ownerKey id : String) : String := ownerKey ++ "#" ++ id

/-- Hexadecimal digit (uppercase) for `n < 16`. -/
def hexDigit (n : Nat) : Char := Char.ofNat (if n < 10 then 48 + n else 55 + n)

/-- UTF-8 bytes of a code point. -/
def utf8Bytes (n : Nat) : List Nat :=
  if n < 128 then [n]
  else if n < 2048 then [192 + n / 64, 128 + n % 64]
  else if n < 65536 then [224 + n / 4096, 128 + (n / 64) % 64, 128 + n % 64]
  else [240 + n / 262144, 128 + (n / 4096) % 64, 128 + (n / 64) % 64, 128 + n % 64]

/-- Characters that JavaScript `encodeURIComponent` leaves unescaped. -/
def isUriUnreserved (c : Char) : Bool :=
  c.isAlpha || c.isDigit || c == '-' || c == '_' || c == '.' ||
  c == '!' || c == '~' || c == '*' || c == Char.ofNat 39 || c == '(' || c == ')'

/-- Model of JavaScript `encodeURIComponent`: unreserved characters
pass through, every other character is percent-encoded per UTF-8 byte. -/
def encodeURIComponent (s : String) : String :=
  ⟨s.data.foldr
    (fun c acc =>
      if isUriUnreserved c then c :: acc
      else (utf8Bytes c.toNat).foldr
        (fun b acc2 => '%' :: hexDigit (b / 16) :: hexDigit (b % 16) :: acc2) acc)
    []⟩

/-- `outKeyFor`: the S3 object key of a job's published output. -/
def outKeyFor (cfg : Config) (ownerKey id ext : String) : String :=
  cfg.s3Prefix ++ "/" ++ encodeURIComponent ownerKey ++ "/" ++ id ++ "/output." ++ ext

/-- Portion of a POSIX path after the last separator, with trailing
separators removed first (as Node `path.basename` does). -/
def basenameRaw (s : String) : String :=
  let noTrail := (s.data.reverse.dropWhile (fun c => c == '/')).reverse
  ⟨(noTrail.reverse.takeWhile (fun c => !(c == '/'))).reverse⟩

/-- Model of Node `path.extname`: the suffix of the basename from its
last dot, or `""` when there is no dot, the dot is the first character
of the basename, or the basename is exactly `".."`. -/
def extname (p : String) : String :=
  let base := basenameRaw p
  if base = ".." then ""
  else
    let tail := base.data.reverse.takeWhile (fun c => !(c == '.'))
    if tail.length = base.data.length then ""
    else
      let i := base.data.length - tail.length - 1
      if i = 0 then "" else ⟨base.data.drop i⟩

/-- Model of Node `path.basename(p, suffix)`: the basename with a
trailing `suffix` removed, unless the basename equals the suffix. -/
def basenameSuffix (p suffix : String) : String :=
  let b := basenameRaw p
  if b ≠ suffix ∧ suffix.data.isSuffixOf b.data then
    ⟨b.data.take (b.data.length - suffix.data.length)⟩
  else b

/-- Characters matching the JavaScript regex class `[\w.-]`. -/
def isWordDotDash (c : Char) : Bool :=
  c.isAlpha || c.isDigit || c == '_' || c == '.' || c == '-'

/-- Replace every maximal run of characters outside `[\w.-]` by a
single underscore (the `replace(/[^\w.-]+/g, '_')` of `safeFilename`).
The flag records whether the previous character was part of such a
run. -/
def sanitizeRun : Bool → List Char → List Char
  | _, [] => []
  | inRun, c :: rest =>
    if isWordDotDash c then c :: sanitizeRun false rest
    else if inRun then sanitizeRun true rest
    else '_' :: sanitizeRun true rest

/-- `safeFilename(name, fallbackExt)` from the source: derive the
extension from the original name (falling back to `fallbackExt` only
when the name has none), sanitize and truncate the basename, and glue
them back together. -/
def safeFilename (name : Option String) (fallbackExt : String) : String :=
  let e := (extname (jsStrOr name "")).drop 1
  let ext := if e.isEmpty then fallbackExt else e
  let base0 := basenameSuffix (jsStrOr name ("video." ++ ext)) ("." ++ ext)
  let base1 := (String.mk (sanitizeRun false base0.data)).take 100
  let base := if base1.isEmpty then "video" else base1
  base ++ "." ++ ext

/-- Content type chosen for the published artifact. -/
def contentTypeFor (ext : String) : String :=
  if ext == "mp4" then "video/mp4"
  else if ext == "webm" then "video/webm"
  else if ext == "mov" then "video/quicktime"
  else "application/octet-stream"

/-! ## DynamoDB operations used by the route module -/

/-- Whether an item carries the given primary key (fixed partition
attribute `qut-username` and sort attribute `videoId`). -/
def keyMatches (pk vid : String) (it : Item) : Bool :=
  it.lookup "qut-username" == some (.str pk) && it.lookup "videoId" == some (.str vid)

/-- `PutItem`: replaces any item with the same primary key, otherwise
inserts. -/
def ddbPut (t : Table) (pk vid : String) (item : Item) : Table :=
  t.filter (fun it => !(keyMatches pk vid it)) ++ [item]

/-- `UpdateItem` without a condition expression: when an item with the
given key exists, its attributes are updated in place; otherwise a new
item holding the key attributes and the updated fields is created
(DynamoDB's documented upsert behaviour). -/
def ddbUpdate (t : Table) (pk vid : String) (sets : List (String × AttrVal)) : Table :=
  if t.any (keyMatches pk vid) then
    t.map (fun it => if keyMatches pk vid it then applyUpdates it sets else it)
  else
    t ++ [applyUpdates [("qut-username", .str pk), ("videoId", .str vid)] sets]

/-- `GetItem` by full primary key. -/
def ddbGet (t : Table) (pk vid : String) : Option Item :=
  t.find? (keyMatches pk vid)

/-- DynamoDB `begins_with(s, pre)`. -/
def beginsWith (s pre : String) : Bool := pre.data.isPrefixOf s.data

/-- The `/list` query: `#pk = :pk AND begins_with(#vid, :prefix)` with
`:prefix = ownerKey#`.  The descending sort-key order requested by
`ScanIndexForward: false` is not modelled; no claim under verification
depends on the order of the returned items. -/
def listQuery (cfg : Config) (t : Table) (ownerKey : String) : List Item :=
  t.filter (fun it =>
    it.lookup "qut-username" == some (.str cfg.fixedPkVal) &&
    (match it.lookup "videoId" with
     | some (.str v) => beginsWith v (ownerKey ++ "#")
     | _ => false))

/-! ## Metadata helpers (`putMeta`, `patchMeta`, `getMeta`) -/

/-- `putMeta`: insert the seed record; the item is the fixed partition
key, the composite sort key, the raw id, the owner key, the owner
email when present, and the caller-supplied fields. -/
def putMeta (cfg : Config) (t : Table) (ownerKey : String)
    (ownerEmail : Option String) (id : String) (item : Item) : Table :=
  ddbPut t cfg.fixedPkVal (composeVideoId ownerKey id)
    ([("qut-username", .str cfg.fixedPkVal),
      ("videoId", .str (composeVideoId ownerKey id)),
      ("id", .str id),
      ("ownerKey", .str ownerKey)] ++
     (match ownerEmail with
      | some e => [("ownerEmail", .str e)]
      | none => []) ++ item)

/-- The `SET` actions `patchMeta` builds: every update field except the
two key attributes, which are skipped (`never overwrite keys`). -/
def patchSets (updates : List (String × AttrVal)) : List (String × AttrVal) :=
  updates.filter (fun p => !(p.1 == "qut-username") && !(p.1 == "videoId"))

/-- `patchMeta`: merge the named fields into the record; when no `SET`
action survives the key filter the function returns without issuing
any store command. -/
def patchMeta (cfg : Config) (t : Table) (ownerKey id : String)
    (updates : List (String × AttrVal)) : Table :=
  let sets := patchSets updates
  if sets.isEmpty then t
  else ddbUpdate t cfg.fixedPkVal (composeVideoId ownerKey id) sets

/-- `getMeta`: point read by the composed key. -/
def getMeta (cfg : Config) (t : Table) (ownerKey id : String) : Option Item :=
  ddbGet t cfg.fixedPkVal (composeVideoId ownerKey id)

/-! ## Store lemmas -/

theorem keyMatches_applyUpdates (pk vid : String) (it : Item)
    (sets : List (String × AttrVal))
    (h : ∀ p ∈ sets, p.1 ≠ "qut-username" ∧ p.1 ≠ "videoId") :
    keyMatches pk vid (applyUpdates it sets) = keyMatches pk vid it := by
  unfold keyMatches
  rw [lookup_applyUpdates_of_not_mem sets it "qut-username" (fun p hp => (h p hp).1),
    lookup_applyUpdates_of_not_mem sets it "videoId" (fun p hp => (h p hp).2)]

theorem patchSets_names (updates : List (String × AttrVal)) :
    ∀ p ∈ patchSets updates, p.1 ≠ "qut-username" ∧ p.1 ≠ "videoId" := by
  intro p hp
  have := (List.mem_filter.mp hp).2
  constructor
  · intro h; simp [h] at this
  · intro h; simp [h] at this

theorem ddbGet_ddbPut_self (t : Table) (pk vid : String) (item : Item)
    (h : keyMatches pk vid item = true) :
    ddbGet (ddbPut t pk vid item) pk vid = some item := by
  unfold ddbGet ddbPut
  rw [List.find?_append]
  have hnone : (t.filter (fun it => !(keyMatches pk vid it))).find?
      (keyMatches pk vid) = none := by
    apply List.find?_eq_none.mpr
    intro x hx
    have := (List.mem_filter.mp hx).2
    simp at this
    simp [this]
  simp [hnone, List.find?, h]

theorem ddbGet_ddbUpdate_of_get (t : Table) (pk vid : String) (it : Item)
    (sets : List (String × AttrVal))
    (hget : ddbGet t pk vid = some it)
    (hsets : ∀ p ∈ sets, p.1 ≠ "qut-username" ∧ p.1 ≠ "videoId") :
    ddbGet (ddbUpdate t pk vid sets) pk vid = some (applyUpdates it sets) := by
  unfold ddbGet at hget
  have hmem : it ∈ t := List.mem_of_find?_eq_some hget
  have hit : keyMatches pk vid it = true := List.find?_some hget
  have hany : t.any (keyMatches pk vid) = true :=
    List.any_eq_true.mpr ⟨it, hmem, hit⟩
  unfold ddbGet ddbUpdate
  rw [if_pos hany]
  clear hmem hany
  induction t with
  | nil => simp [List.find?] at hget
  | cons hd tl ih =>
    by_cases hK : keyMatches pk vid hd = true
    · have hhd : hd = it := by
        have := hget
        simp [List.find?, hK] at this
        exact this
      subst hhd
      have hpres : keyMatches pk vid (applyUpdates hd sets) = true := by
        rw [keyMatches_applyUpdates pk vid hd sets hsets]; exact hit
      simp [List.find?, hK, hpres]
    · have hK' : keyMatches pk vid hd = false := by simpa using hK
      have hget' : tl.find? (keyMatches pk vid) = some it := by
        simpa [List.find?, hK'] using hget
      simp [List.find?, hK', ih hget']

/-- `getMeta` after `patchMeta` on an existing record: the record is
the old one with the non-key fields merged in. -/
theorem getMeta_patchMeta_of_get (cfg : Config) (t : Table)
    (ownerKey id : String) (updates : List (String × AttrVal)) (it : Item)
    (hget : getMeta cfg t ownerKey id = some it) :
    getMeta cfg (patchMeta cfg t ownerKey id updates) ownerKey id =
      some (applyUpdates it (patchSets updates)) := by
  unfold patchMeta
  by_cases he : (patchSets updates).isEmpty
  · have : patchSets updates = [] := by
      cases h : patchSets updates with
      | nil => rfl
      | cons a l => rw [h] at he; simp at he
    simp [he, this, hget]
  · have he' : (patchSets updates).isEmpty = false := by simpa using he
    simp only [he', Bool.false_eq_true, if_false]
    exact ddbGet_ddbUpdate_of_get t cfg.fixedPkVal (composeVideoId ownerKey id)
      it (patchSets updates) hget (patchSets_names updates)

/-! ## The `/start` pipeline

External effects (S3 `GetObject`, the pipe to the scratch file, the
`ffmpeg` subprocess, `ffprobe`, S3 `PutObject`, clock and id
generation) are decided by an explicit environment record. -/

/-- Outcome of a successful S3 `GetObject` on the source. -/
structure FetchInfo where
  contentLength : Option Rat
  lastModified : Option String
  deriving DecidableEq, Repr

/-- Outcome of the `ffmpeg` subprocess: an exit code, or a spawn
failure (`error` event). -/
inductive FfmpegOutcome where
  | exited (code : Nat)
  | spawnErr (msg : String)
  deriving DecidableEq, Repr

/-- Structured metadata extracted by `extractVideoMeta` from a
successful `ffprobe` run (every field nullable). -/
structure ProbeMeta where
  width : Option Rat
  height : Option Rat
  codec : Option String
  audioCodec : Option String
  fps : Option Rat
  duration : Option Rat
  bitrate : Option Rat
  deriving DecidableEq, Repr

/-- A nullable number as a stored attribute value (`x ?? null`). -/
def optNumV : Option Rat → AttrVal
  | some q => .num q
  | none => .nul

/-- A nullable string as a stored attribute value. -/
def optStrV : Option String → AttrVal
  | some s => .str s
  | none => .nul

/-- The fields `extractVideoMeta` returns, as `SET` actions. -/
def probeAttrs (m : ProbeMeta) : List (String × AttrVal) :=
  [("width", optNumV m.width), ("height", optNumV m.height),
   ("codec", optStrV m.codec), ("audioCodec", optStrV m.audioCodec),
   ("fps", optNumV m.fps), ("duration", optNumV m.duration),
   ("bitrate", optNumV m.bitrate)]

/-- Environment of one `/start` request: generated id, clock readings,
date parsing, and the outcome of every external call.  A `some`
`lastModified` is a nonempty ISO timestamp (`Date#toISOString` output),
so `some`-ness coincides with JavaScript truthiness for it. -/
structure Env where
  newId : String
  nowIso : String
  doneNowIso : String
  parseIso : String → Option String
  fetch : Option FetchInfo
  fetchErrMsg : String
  streamOk : Bool
  streamErrMsg : String
  ffmpeg : FfmpegOutcome
  probe : Option ProbeMeta
  statSize : Rat
  publishOk : Bool
  publishErrMsg : String

/-- Body and identity of a `/start` request.  `originalSizeBytes` is
`some n` when the client supplied a finite number, `none` otherwise
(the `Number.isFinite(Number(x))` guard). -/
structure StartReq where
  user : Option Claims
  s3Key : Option String
  originalFilename : Option String
  format : Option String
  originalSizeBytes : Option Rat
  uploadedAt : Option String

/-- An object successfully published to S3 by `PutObjectCommand`. -/
structure S3Put where
  bucket : String
  key : String
  contentType : String
  contentDisposition : String
  metaOriginalFilename : String
  deriving DecidableEq, Repr

/-- Response body of `/start`. -/
inductive StartBody where
  | authErr (error : String)
  | badReq (error : String)
  | ok (id outputFormat : String)
  | failed (error details id : String)
  deriving DecidableEq, Repr

/-- Observable outcome of one `/start` request: HTTP response, final
table, the table state after every metadata mutation (`trace`), the
scratch files left on disk, and the S3 operations performed. -/
structure StartResult where
  httpStatus : Nat
  body : StartBody
  table : Table
  trace : List Table
  scratch : List String
  s3Gets : List (String × String)
  s3Puts : List S3Put
  deriving Repr

/-- The `catch` block of `/start`: patch the record to `error`
(resetting `progress` to 0 and storing the message), unlink both
scratch paths (missing files are ignored), and answer 500 with the job
id. -/
def startCatch (cfg : Config) (ownerKey id inputPath outPath msg : String)
    (t : Table) (trace : List Table) (scratch : List String)
    (gets : List (String × String)) : StartResult :=
  let te := patchMeta cfg t ownerKey id
    [("status", .str "error"), ("progress", .num 0), ("error", .str msg)]
  { httpStatus := 500
    body := .failed "Transcode failed" msg id
    table := te
    trace := trace ++ [te]
    scratch := (scratch.erase inputPath).erase outPath
    s3Gets := gets
    s3Puts := [] }

/-- Target extension of a `/start` request:
`guessExt(format || 'mp4')`. -/
def startExt (req : StartReq) : String :=
  guessExt (some (jsStrOr req.format "mp4"))

/-- Local scratch path of the fetched source. -/
def startInputPath (cfg : Config) (env : Env) : String :=
  cfg.tmpDir ++ "/" ++ env.newId ++ ".src"

/-- Local scratch path of the transcoded output. -/
def startOutPath (cfg : Config) (req : StartReq) (env : Env) : String :=
  cfg.tmpDir ++ "/" ++ env.newId ++ ".out." ++ startExt req

/-- Normalized `uploadedAt` timestamp: the client value when it parses
as a date, the current time otherwise. -/
def startUploadedAtIso (req : StartReq) (env : Env) : String :=
  match req.uploadedAt with
  | none => env.nowIso
  | some u => if u.isEmpty then env.nowIso else (env.parseIso u).getD env.nowIso

/-- Table after the seed `putMeta` (status `queued`). -/
def seedTable (cfg : Config) (req : StartReq) (env : Env) (t0 : Table)
    (ownerKey : String) : Table :=
  putMeta cfg t0 ownerKey (ownerEmailFromReq req.user) env.newId
    [("originalFilename", .str (jsStrOr req.originalFilename "upload")),
     ("sourceBucket", .str cfg.s3Bucket),
     ("sourceKey", .str (jsStrOr req.s3Key "")),
     ("status", .str "queued"),
     ("progress", .num 0),
     ("outputFormat", .str (startExt req)),
     ("originalSizeBytes", optNumV req.originalSizeBytes),
     ("uploadedAt", .str (startUploadedAtIso req env)),
     ("createdAt", .str env.nowIso)]

/-- Table after the `downloading` patch. -/
def dlTable (cfg : Config) (req : StartReq) (env : Env) (t0 : Table)
    (ownerKey : String) : Table :=
  patchMeta cfg (seedTable cfg req env t0 ownerKey) ownerKey env.newId
    [("status", .str "downloading"), ("progress", .num 5)]

/-- The authoritative size/timestamp fields patched in after a
successful `GetObject`. -/
def sizeSets (req : StartReq) (fi : FetchInfo) : List (String × AttrVal) :=
  [("inputSizeBytes", optNumV fi.contentLength)] ++
  (match fi.lastModified, req.uploadedAt with
   | some u, none => [("uploadedAt", .str u)]
   | _, _ => [])

/-- Table after the conditional size/timestamp patch. -/
def sizeTable (cfg : Config) (req : StartReq) (env : Env) (t0 : Table)
    (ownerKey : String) (fi : FetchInfo) : Table :=
  if fi.contentLength.isSome || fi.lastModified.isSome then
    patchMeta cfg (dlTable cfg req env t0 ownerKey) ownerKey env.newId
      (sizeSets req fi)
  else dlTable cfg req env t0 ownerKey

/-- Table after the `processing` patch. -/
def procTable (cfg : Config) (req : StartReq) (env : Env) (t0 : Table)
    (ownerKey : String) (fi : FetchInfo) : Table :=
  patchMeta cfg (sizeTable cfg req env t0 ownerKey fi) ownerKey env.newId
    [("status", .str "processing"), ("progress", .num 20)]

/-- Table after the best-effort probe patch (unchanged when `ffprobe`
failed, which is only logged). -/
def probeTable (cfg : Config) (req : StartReq) (env : Env) (t0 : Table)
    (ownerKey : String) (fi : FetchInfo) : Table :=
  match env.probe with
  | some m =>
    patchMeta cfg (procTable cfg req env t0 ownerKey fi) ownerKey env.newId
      (probeAttrs m ++ [("progress", .num 80)])
  | none => procTable cfg req env t0 ownerKey fi

/-- Table after the `uploading` patch. -/
def upTable (cfg : Config) (req : StartReq) (env : Env) (t0 : Table)
    (ownerKey : String) (fi : FetchInfo) : Table :=
  patchMeta cfg (probeTable cfg req env t0 ownerKey fi) ownerKey env.newId
    [("status", .str "uploading"), ("progress", .num 85)]

/-- Table after the final `done` patch, which also records the output
location. -/
def doneTable (cfg : Config) (req : StartReq) (env : Env) (t0 : Table)
    (ownerKey : String) (fi : FetchInfo) : Table :=
  patchMeta cfg (upTable cfg req env t0 ownerKey fi) ownerKey env.newId
    [("status", .str "done"), ("progress", .num 100),
     ("fileSize", .num env.statSize),
     ("outputSizeBytes", .num env.statSize),
     ("s3Bucket", .str cfg.s3Bucket),
     ("s3Key", .str (outKeyFor cfg ownerKey env.newId (startExt req))),
     ("completedAt", .str env.doneNowIso)]

/-- The `POST /start` handler. -/
def runStart (cfg : Config) (req : StartReq) (env : Env) (t0 : Table) : StartResult :=
  match ownerKeyFromReq req.user with
  | none =>
    { httpStatus := 401, body := .authErr "Missing identity in token",
      table := t0, trace := [], scratch := [], s3Gets := [], s3Puts := [] }
  | some ownerKey =>
    if !(jsTruthy req.s3Key) then
      { httpStatus := 400, body := .badReq "s3Key required",
        table := t0, trace := [], scratch := [], s3Gets := [], s3Puts := [] }
    else
      let id := env.newId
      let ext := startExt req
      let inputPath := startInputPath cfg env
      let outPath := startOutPath cfg req env
      let t1 := seedTable cfg req env t0 ownerKey
      let t2 := dlTable cfg req env t0 ownerKey
      let gets := [(cfg.s3Bucket, jsStrOr req.s3Key "")]
      match env.fetch with
      | none =>
        startCatch cfg ownerKey id inputPath outPath env.fetchErrMsg
          t2 [t1, t2] [] gets
      | some fi =>
        let t3 := sizeTable cfg req env t0 ownerKey fi
        if !env.streamOk then
          startCatch cfg ownerKey id inputPath outPath env.streamErrMsg
            t3 [t1, t2, t3] [inputPath] gets
        else
          let t4 := procTable cfg req env t0 ownerKey fi
          match env.ffmpeg with
          | .spawnErr m =>
            startCatch cfg ownerKey id inputPath outPath m
              t4 [t1, t2, t3, t4] [inputPath] gets
          | .exited code =>
            if code = 0 then
              let t5 := probeTable cfg req env t0 ownerKey fi
              let t6 := upTable cfg req env t0 ownerKey fi
              let downloadName := safeFilename req.originalFilename ext
              if !env.publishOk then
                startCatch cfg ownerKey id inputPath outPath env.publishErrMsg
                  t6 [t1, t2, t3, t4, t5, t6] [inputPath, outPath] gets
              else
                let put : S3Put :=
                  { bucket := cfg.s3Bucket
                    key := outKeyFor cfg ownerKey id ext
                    contentType := contentTypeFor ext
                    contentDisposition := "attachment; filename=\"" ++ downloadName ++ "\""
                    metaOriginalFilename := jsStrOr req.originalFilename "upload" }
                let t7 := doneTable cfg req env t0 ownerKey fi
                { httpStatus := 200
                  body := .ok id ext
                  table := t7
                  trace := [t1, t2, t3, t4, t5, t6, t7]
                  scratch := (([inputPath, outPath] : List String).erase inputPath).erase outPath
                  s3Gets := gets
                  s3Puts := [put] }
            else
              startCatch cfg ownerKey id inputPath outPath
                ("ffmpeg failed: " ++ toString code)
                t4 [t1, t2, t3, t4] [inputPath] gets

/-! ## The record of a `/start` job at every pipeline stage

`stageItem` lemmas below show that `getMeta` on the corresponding
stage table returns exactly these items. -/

/-- The record as seeded by `putMeta` (status `queued`). -/
def seedFull (cfg : Config) (req : StartReq) (env : Env) (ownerKey : String) : Item :=
  [("qut-username", .str cfg.fixedPkVal),
   ("videoId", .str (composeVideoId ownerKey env.newId)),
   ("id", .str env.newId),
   ("ownerKey", .str ownerKey)] ++
  (match ownerEmailFromReq req.user with
   | some e => [("ownerEmail", .str e)]
   | none => []) ++
  [("originalFilename", .str (jsStrOr req.originalFilename "upload")),
   ("sourceBucket", .str cfg.s3Bucket),
   ("sourceKey", .str (jsStrOr req.s3Key "")),
   ("status", .str "queued"),
   ("progress", .num 0),
   ("outputFormat", .str (startExt req)),
   ("originalSizeBytes", optNumV req.originalSizeBytes),
   ("uploadedAt", .str (startUploadedAtIso req env)),
   ("createdAt", .str env.nowIso)]

/-- The record after the `downloading` patch. -/
def dlItem (cfg : Config) (req : StartReq) (env : Env) (ownerKey : String) : Item :=
  applyUpdates (seedFull cfg req env ownerKey)
    [("status", .str "downloading"), ("progress", .num 5)]

/-- The record after the conditional size/timestamp patch. -/
def sizeItem (cfg : Config) (req : StartReq) (env : Env) (ownerKey : String)
    (fi : FetchInfo) : Item :=
  if fi.contentLength.isSome || fi.lastModified.isSome then
    applyUpdates (dlItem cfg req env ownerKey) (sizeSets req fi)
  else dlItem cfg req env ownerKey

/-- The record after the `processing` patch. -/
def procItem (cfg : Config) (req : StartReq) (env : Env) (ownerKey : String)
    (fi : FetchInfo) : Item :=
  applyUpdates (sizeItem cfg req env ownerKey fi)
    [("status", .str "processing"), ("progress", .num 20)]

/-- The record after the best-effort probe patch. -/
def probeItem (cfg : Config) (req : StartReq) (env : Env) (ownerKey : String)
    (fi : FetchInfo) : Item :=
  match env.probe with
  | some m =>
    applyUpdates (procItem cfg req env ownerKey fi)
      (probeAttrs m ++ [("progress", .num 80)])
  | none => procItem cfg req env ownerKey fi

/-- The record after the `uploading` patch. -/
def upItem (cfg : Config) (req : StartReq) (env : Env) (ownerKey : String)
    (fi : FetchInfo) : Item :=
  applyUpdates (probeItem cfg req env ownerKey fi)
    [("status", .str "uploading"), ("progress", .num 85)]

/-- The record after the final `done` patch. -/
def doneItem (cfg : Config) (req : StartReq) (env : Env) (ownerKey : String)
    (fi : FetchInfo) : Item :=
  applyUpdates (upItem cfg req env ownerKey fi)
    [("status", .str "done"), ("progress", .num 100),
     ("fileSize", .num env.statSize),
     ("outputSizeBytes", .num env.statSize),
     ("s3Bucket", .str cfg.s3Bucket),
     ("s3Key", .str (outKeyFor cfg ownerKey env.newId (startExt req))),
     ("completedAt", .str env.doneNowIso)]

/-- The record after the `catch` block's error patch. -/
def errItemFrom (it : Item) (msg : String) : Item :=
  applyUpdates it
    [("status", .str "error"), ("progress", .num 0), ("error", .str msg)]

theorem getMeta_seedTable (cfg : Config) (req : StartReq) (env : Env)
    (t0 : Table) (ownerKey : String) :
    getMeta cfg (seedTable cfg req env t0 ownerKey) ownerKey env.newId =
      some (seedFull cfg req env ownerKey) := by
  unfold getMeta seedTable putMeta seedFull
  apply ddbGet_ddbPut_self
  cases h : ownerEmailFromReq req.user <;>
    simp [keyMatches, h, List.lookup]

theorem getMeta_dlTable (cfg : Config) (req : StartReq) (env : Env)
    (t0 : Table) (ownerKey : String) :
    getMeta cfg (dlTable cfg req env t0 ownerKey) ownerKey env.newId =
      some (dlItem cfg req env ownerKey) := by
  have h := getMeta_patchMeta_of_get cfg (seedTable cfg req env t0 ownerKey)
    ownerKey env.newId [("status", .str "downloading"), ("progress", .num 5)]
    (seedFull cfg req env ownerKey) (getMeta_seedTable cfg req env t0 ownerKey)
  simpa [patchSets, dlItem, dlTable] using h

/-- The names `sizeSets` can use. -/
theorem sizeSets_names (req : StartReq) (fi : FetchInfo) :
    ∀ p ∈ sizeSets req fi, p.1 = "inputSizeBytes" ∨ p.1 = "uploadedAt" := by
  intro p hp
  unfold sizeSets at hp
  rcases h1 : fi.lastModified with _ | u <;> rcases h2 : req.uploadedAt with _ | v <;>
    rw [h1, h2] at hp <;> simp at hp <;>
    first
      | (left; rw [hp])
      | (rcases hp with hp | hp
         · left; rw [hp]
         · right; rw [hp])

theorem patchSets_sizeSets (req : StartReq) (fi : FetchInfo) :
    patchSets (sizeSets req fi) = sizeSets req fi := by
  unfold sizeSets
  rcases fi.lastModified with _ | u <;> rcases req.uploadedAt with _ | v <;>
    simp [patchSets]

theorem getMeta_sizeTable (cfg : Config) (req : StartReq) (env : Env)
    (t0 : Table) (ownerKey : String) (fi : FetchInfo) :
    getMeta cfg (sizeTable cfg req env t0 ownerKey fi) ownerKey env.newId =
      some (sizeItem cfg req env ownerKey fi) := by
  unfold sizeTable sizeItem
  by_cases hc : (fi.contentLength.isSome || fi.lastModified.isSome) = true
  · rw [if_pos hc, if_pos hc]
    have h := getMeta_patchMeta_of_get cfg (dlTable cfg req env t0 ownerKey)
      ownerKey env.newId (sizeSets req fi)
      (dlItem cfg req env ownerKey) (getMeta_dlTable cfg req env t0 ownerKey)
    rwa [patchSets_sizeSets] at h
  · rw [if_neg hc, if_neg hc]
    exact getMeta_dlTable cfg req env t0 ownerKey

theorem getMeta_procTable (cfg : Config) (req : StartReq) (env : Env)
    (t0 : Table) (ownerKey : String) (fi : FetchInfo) :
    getMeta cfg (procTable cfg req env t0 ownerKey fi) ownerKey env.newId =
      some (procItem cfg req env ownerKey fi) := by
  have h := getMeta_patchMeta_of_get cfg (sizeTable cfg req env t0 ownerKey fi)
    ownerKey env.newId [("status", .str "processing"), ("progress", .num 20)]
    (sizeItem cfg req env ownerKey fi) (getMeta_sizeTable cfg req env t0 ownerKey fi)
  simpa [patchSets, procItem, procTable] using h

/-- The names a probe patch can use. -/
theorem probeSets_names (m : ProbeMeta) :
    ∀ p ∈ probeAttrs m ++ [(("progress" : String), AttrVal.num 80)],
      p.1 = "width" ∨ p.1 = "height" ∨ p.1 = "codec" ∨ p.1 = "audioCodec" ∨
      p.1 = "fps" ∨ p.1 = "duration" ∨ p.1 = "bitrate" ∨ p.1 = "progress" := by
  intro p hp
  simp [probeAttrs] at hp
  rcases hp with rfl | rfl | rfl | rfl | rfl | rfl | rfl | rfl <;> simp

theorem getMeta_probeTable (cfg : Config) (req : StartReq) (env : Env)
    (t0 : Table) (ownerKey : String) (fi : FetchInfo) :
    getMeta cfg (probeTable cfg req env t0 ownerKey fi) ownerKey env.newId =
      some (probeItem cfg req env ownerKey fi) := by
  unfold probeTable probeItem
  rcases hp : env.probe with _ | m
  · exact getMeta_procTable cfg req env t0 ownerKey fi
  · have h := getMeta_patchMeta_of_get cfg (procTable cfg req env t0 ownerKey fi)
      ownerKey env.newId (probeAttrs m ++ [("progress", .num 80)])
      (procItem cfg req env ownerKey fi) (getMeta_procTable cfg req env t0 ownerKey fi)
    simpa [patchSets, probeAttrs] using h

theorem getMeta_upTable (cfg : Config) (req : StartReq) (env : Env)
    (t0 : Table) (ownerKey : String) (fi : FetchInfo) :
    getMeta cfg (upTable cfg req env t0 ownerKey fi) ownerKey env.newId =
      some (upItem cfg req env ownerKey fi) := by
  have h := getMeta_patchMeta_of_get cfg (probeTable cfg req env t0 ownerKey fi)
    ownerKey env.newId [("status", .str "uploading"), ("progress", .num 85)]
    (probeItem cfg req env ownerKey fi) (getMeta_probeTable cfg req env t0 ownerKey fi)
  simpa [patchSets, upItem, upTable] using h

theorem getMeta_doneTable (cfg : Config) (req : StartReq) (env : Env)
    (t0 : Table) (ownerKey : String) (fi : FetchInfo) :
    getMeta cfg (doneTable cfg req env t0 ownerKey fi) ownerKey env.newId =
      some (doneItem cfg req env ownerKey fi) := by
  have h := getMeta_patchMeta_of_get cfg (upTable cfg req env t0 ownerKey fi)
    ownerKey env.newId
    [("status", .str "done"), ("progress", .num 100),
     ("fileSize", .num env.statSize),
     ("outputSizeBytes", .num env.statSize),
     ("s3Bucket", .str cfg.s3Bucket),
     ("s3Key", .str (outKeyFor cfg ownerKey env.newId (startExt req))),
     ("completedAt", .str env.doneNowIso)]
    (upItem cfg req env ownerKey fi) (getMeta_upTable cfg req env t0 ownerKey fi)
  simpa [patchSets, doneItem, doneTable] using h

theorem getMeta_startCatch (cfg : Config) (ownerKey id inputPath outPath msg : String)
    (t : Table) (trace : List Table) (scratch : List String)
    (gets : List (String × String)) (it : Item)
    (hget : getMeta cfg t ownerKey id = some it) :
    getMeta cfg (startCatch cfg ownerKey id inputPath outPath msg
        t trace scratch gets).table ownerKey id = some (errItemFrom it msg) := by
  have h := getMeta_patchMeta_of_get cfg t ownerKey id
    [("status", .str "error"), ("progress", .num 0), ("error", .str msg)] it hget
  simpa [patchSets, errItemFrom, startCatch] using h

/-! ## Per-stage record facts -/

/-- Whether the output location descriptor (`s3Bucket` and `s3Key`) is
populated with string values. -/
def outputPopulated (it : Item) : Bool :=
  (match it.lookup "s3Bucket" with | some (.str _) => true | _ => false) &&
  (match it.lookup "s3Key" with | some (.str _) => true | _ => false)

theorem seedFull_facts (cfg : Config) (req : StartReq) (env : Env) (ownerKey : String) :
    (seedFull cfg req env ownerKey).lookup "status" = some (.str "queued") ∧
    (seedFull cfg req env ownerKey).lookup "s3Bucket" = none ∧
    (seedFull cfg req env ownerKey).lookup "s3Key" = none := by
  cases h : ownerEmailFromReq req.user <;> simp [seedFull, h, List.lookup]

theorem dlItem_facts (cfg : Config) (req : StartReq) (env : Env) (ownerKey : String) :
    (dlItem cfg req env ownerKey).lookup "status" = some (.str "downloading") ∧
    (dlItem cfg req env ownerKey).lookup "s3Bucket" = none ∧
    (dlItem cfg req env ownerKey).lookup "s3Key" = none := by
  obtain ⟨h1, h2, h3⟩ := seedFull_facts cfg req env ownerKey
  unfold dlItem
  simp [lookup_setAttr_ne, h2, h3]

theorem sizeItem_facts (cfg : Config) (req : StartReq) (env : Env)
    (ownerKey : String) (fi : FetchInfo) :
    (sizeItem cfg req env ownerKey fi).lookup "status" = some (.str "downloading") ∧
    (sizeItem cfg req env ownerKey fi).lookup "s3Bucket" = none ∧
    (sizeItem cfg req env ownerKey fi).lookup "s3Key" = none := by
  obtain ⟨h1, h2, h3⟩ := dlItem_facts cfg req env ownerKey
  unfold sizeItem
  by_cases hc : (fi.contentLength.isSome || fi.lastModified.isSome) = true
  · rw [if_pos hc]
    have hs : ∀ k : String, k ≠ "inputSizeBytes" → k ≠ "uploadedAt" →
        (applyUpdates (dlItem cfg req env ownerKey) (sizeSets req fi)).lookup k =
          (dlItem cfg req env ownerKey).lookup k := by
      intro k hk1 hk2
      apply lookup_applyUpdates_of_not_mem
      intro p hp
      rcases sizeSets_names req fi p hp with h | h <;> rw [h]
      · exact Ne.symm hk1
      · exact Ne.symm hk2
    refine ⟨?_, ?_, ?_⟩ <;> rw [hs _ (by decide) (by decide)] <;> assumption
  · rw [if_neg hc]; exact ⟨h1, h2, h3⟩

theorem procItem_facts (cfg : Config) (req : StartReq) (env : Env)
    (ownerKey : String) (fi : FetchInfo) :
    (procItem cfg req env ownerKey fi).lookup "status" = some (.str "processing") ∧
    (procItem cfg req env ownerKey fi).lookup "s3Bucket" = none ∧
    (procItem cfg req env ownerKey fi).lookup "s3Key" = none := by
  obtain ⟨h1, h2, h3⟩ := sizeItem_facts cfg req env ownerKey fi
  unfold procItem
  simp [lookup_setAttr_ne, h2, h3]

theorem probeItem_facts (cfg : Config) (req : StartReq) (env : Env)
    (ownerKey : String) (fi : FetchInfo) :
    (probeItem cfg req env ownerKey fi).lookup "status" = some (.str "processing") ∧
    (probeItem cfg req env ownerKey fi).lookup "s3Bucket" = none ∧
    (probeItem cfg req env ownerKey fi).lookup "s3Key" = none := by
  obtain ⟨h1, h2, h3⟩ := procItem_facts cfg req env ownerKey fi
  unfold probeItem
  rcases hp : env.probe with _ | m
  · exact ⟨h1, h2, h3⟩
  · have hs : ∀ k : String, k ≠ "width" → k ≠ "height" → k ≠ "codec" →
        k ≠ "audioCodec" → k ≠ "fps" → k ≠ "duration" → k ≠ "bitrate" →
        k ≠ "progress" →
        (applyUpdates (procItem cfg req env ownerKey fi)
          (probeAttrs m ++ [("progress", .num 80)])).lookup k =
          (procItem cfg req env ownerKey fi).lookup k := by
      intro k hk1 hk2 hk3 hk4 hk5 hk6 hk7 hk8
      apply lookup_applyUpdates_of_not_mem
      intro p hp'
      rcases probeSets_names m p hp' with h | h | h | h | h | h | h | h <;> rw [h] <;>
        intro he <;>
        first
          | exact hk1 he.symm
          | exact hk2 he.symm
          | exact hk3 he.symm
          | exact hk4 he.symm
          | exact hk5 he.symm
          | exact hk6 he.symm
          | exact hk7 he.symm
          | exact hk8 he.symm
    refine ⟨?_, ?_, ?_⟩ <;>
      rw [hs _ (by decide) (by decide) (by decide) (by decide) (by decide)
        (by decide) (by decide) (by decide)] <;> assumption

theorem upItem_facts (cfg : Config) (req : StartReq) (env : Env)
    (ownerKey : String) (fi : FetchInfo) :
    (upItem cfg req env ownerKey fi).lookup "status" = some (.str "uploading") ∧
    (upItem cfg req env ownerKey fi).lookup "s3Bucket" = none ∧
    (upItem cfg req env ownerKey fi).lookup "s3Key" = none := by
  obtain ⟨h1, h2, h3⟩ := probeItem_facts cfg req env ownerKey fi
  unfold upItem
  simp [lookup_setAttr_ne, h2, h3]

theorem doneItem_facts (cfg : Config) (req : StartReq) (env : Env)
    (ownerKey : String) (fi : FetchInfo) :
    (doneItem cfg req env ownerKey fi).lookup "status" = some (.str "done") ∧
    (doneItem cfg req env ownerKey fi).lookup "s3Bucket" = some (.str cfg.s3Bucket) ∧
    (doneItem cfg req env ownerKey fi).lookup "s3Key" =
      some (.str (outKeyFor cfg ownerKey env.newId (startExt req))) := by
  unfold doneItem
  simp [lookup_setAttr_ne]

theorem errItemFrom_facts (it : Item) (msg : String) :
    (errItemFrom it msg).lookup "status" = some (.str "error") ∧
    (errItemFrom it msg).lookup "progress" = some (.num 0) ∧
    (errItemFrom it msg).lookup "s3Bucket" = it.lookup "s3Bucket" ∧
    (errItemFrom it msg).lookup "s3Key" = it.lookup "s3Key" := by
  unfold errItemFrom
  simp [lookup_setAttr_ne]

/-! ## Read-side routes -/

/-- JavaScript `x || d` on a looked-up attribute value. -/
def jsAttrOr (v : Option AttrVal) (d : AttrVal) : AttrVal :=
  match v with
  | some (.str s) => if s.isEmpty then d else .str s
  | some (.num q) => if q = 0 then d else .num q
  | some .nul => d
  | none => d

/-- JavaScript `x ?? d` on a looked-up attribute value. -/
def jsNullish (v : Option AttrVal) (d : AttrVal) : AttrVal :=
  match v with
  | some .nul => d
  | some v => v
  | none => d

/-- JavaScript truthiness of a looked-up attribute value. -/
def jsAttrTruthy : Option AttrVal → Bool
  | some (.str s) => !s.isEmpty
  | some (.num q) => decide (q ≠ 0)
  | some .nul => false
  | none => false

/-- The string held by a looked-up attribute, if any. -/
def attrStr : Option AttrVal → Option String
  | some (.str s) => some s
  | _ => none

/-- Response of `GET /status/:id`. -/
inductive StatusRes where
  | authErr (error : String)
  | notFound
  | ok (id : String) (status progress : AttrVal) (outputFormat : Option AttrVal)
      (error uploadedAt originalSizeBytes outputSizeBytes : AttrVal)
  deriving DecidableEq, Repr

/-- The `GET /status/:id` handler. -/
def statusRoute (cfg : Config) (t : Table) (user : Option Claims)
    (id : String) : StatusRes :=
  match ownerKeyFromReq user with
  | none => .authErr "Missing identity in token"
  | some ownerKey =>
    match getMeta cfg t ownerKey id with
    | none => .notFound
    | some item =>
      .ok id
        (jsAttrOr (item.lookup "status") (.str "unknown"))
        (jsAttrOr (item.lookup "progress") (.num 0))
        (item.lookup "outputFormat")
        (jsAttrOr (item.lookup "error") .nul)
        (jsAttrOr (item.lookup "uploadedAt") .nul)
        (jsNullish (item.lookup "originalSizeBytes")
          (jsNullish (item.lookup "inputSizeBytes") .nul))
        (jsNullish (item.lookup "outputSizeBytes")
          (jsNullish (item.lookup "fileSize") .nul))

/-- Response of `GET /list` (an identity failure is caught by the
surrounding `try` and answered as a 500). -/
inductive ListRes where
  | ok (items : List Item)
  | failed (error : String)
  deriving DecidableEq, Repr

/-- The `GET /list` handler. -/
def listRoute (cfg : Config) (t : Table) (user : Option Claims) : ListRes :=
  match ownerKeyFromReq user with
  | none => .failed "Failed to fetch transcode list"
  | some ownerKey => .ok (listQuery cfg t ownerKey)

/-- Response of `GET /presign-download/:id`; `ok` carries the bucket,
key and response content disposition of the issued presigned handle. -/
inductive PresignRes where
  | ok (bucket key responseContentDisposition : String)
  | notFound
  | badRequest (error : String)
  deriving DecidableEq

/-- The `GET /presign-download/:id` handler. -/
def presignRoute (cfg : Config) (t : Table) (user : Option Claims)
    (id : String) : PresignRes :=
  match ownerKeyFromReq user with
  | none => .badRequest "Missing identity in token"
  | some ownerKey =>
    match getMeta cfg t ownerKey id with
    | none => .notFound
    | some item =>
      if (item.lookup "status" == some (.str "done")) &&
         jsAttrTruthy (item.lookup "s3Bucket") &&
         jsAttrTruthy (item.lookup "s3Key") then
        let keyStr := (attrStr (item.lookup "s3Key")).getD ""
        let extFromKey :=
          let x := (extname keyStr).drop 1
          if x.isEmpty then jsStrOr (attrStr (item.lookup "outputFormat")) "mp4"
          else x
        let downloadName :=
          safeFilename
            (some (jsStrOr (attrStr (item.lookup "originalFilename"))
              ("video." ++ extFromKey)))
            extFromKey
        .ok ((attrStr (item.lookup "s3Bucket")).getD "") keyStr
          ("attachment; filename=\"" ++ downloadName ++ "\"")
      else .notFound

/-! ## Delimiter lemmas for the composite key -/

/-- Two lists split at the first occurrence of a delimiter they do not
contain are equal when the splits line up. -/
theorem eq_of_append_delim {α : Type} [DecidableEq α] :
    ∀ (xs ys : List α) (c : α) (t u : List α), c ∉ xs → c ∉ ys →
      xs ++ c :: t = ys ++ c :: u → xs = ys := by
  intro xs
  induction xs with
  | nil =>
    intro ys c t u _ hys h
    cases ys with
    | nil => rfl
    | cons y ys' =>
      simp only [List.nil_append, List.cons_append, List.cons.injEq] at h
      exact absurd (h.1 ▸ List.mem_cons_self y ys') (h.1 ▸ hys)
  | cons x xs' ih =>
    intro ys c t u hxs hys h
    cases ys with
    | nil =>
      simp only [List.cons_append, List.nil_append, List.cons.injEq] at h
      exact absurd (h.1 ▸ List.mem_cons_self x xs') (h.1 ▸ hxs)
    | cons y ys' =>
      simp only [List.cons_append, List.cons.injEq] at h
      have hx : c ∉ xs' := fun hm => hxs (List.mem_cons_of_mem x hm)
      have hy : c ∉ ys' := fun hm => hys (List.mem_cons_of_mem y hm)
      rw [h.1, ih ys' c t u hx hy h.2]

/-- A composite key of one owner never begins with another owner's
prefix, provided neither owner key contains the delimiter. -/
theorem cross_owner_beginsWith_false (ownerA ownerB j : String)
    (hA : '#' ∉ ownerA.data) (hB : '#' ∉ ownerB.data)
    (hne : ownerA ≠ ownerB) :
    beginsWith (composeVideoId ownerB j) (ownerA ++ "#") = false := by
  rw [Bool.eq_false_iff]
  intro h
  unfold beginsWith composeVideoId at h
  have hp : (ownerA.data ++ ['#']) <+: (ownerB.data ++ ['#'] ++ j.data) := by
    have := List.isPrefixOf_iff_prefix.mp h
    simpa [String.data_append] using this
  obtain ⟨tl, htl⟩ := hp
  have : ownerA.data = ownerB.data := by
    apply eq_of_append_delim ownerA.data ownerB.data '#' tl j.data hA hB
    simpa using htl
  exact hne (String.ext this)

/-- The composite key determines the owner when the raw id is fixed. -/
theorem composeVideoId_inj_left (a b i : String)
    (h : composeVideoId a i = composeVideoId b i) : a = b := by
  unfold composeVideoId at h
  have hd : a.data ++ '#' :: i.data = b.data ++ '#' :: i.data := by
    have := congrArg String.data h
    simpa [String.data_append] using this
  have hlen : a.data.length = b.data.length := by
    have := congrArg List.length hd
    simpa using this
  exact String.ext (List.append_inj_left hd hlen)

/-! ## Sample fixtures used by witnesses and counterexamples -/

/-- A sample deployment configuration. -/
def sampleCfg : Config := ⟨"bkt", "videos", "n1@qut.edu.au", "/tmp/transcoder"⟩

/-- A sample authenticated user. -/
def sampleUser : Option Claims :=
  some ⟨some "Alice@Example.com", some "alice@example.com"⟩

/-- A sample well-formed `/start` request. -/
def sampleReq : StartReq :=
  { user := sampleUser, s3Key := some "videos/alice/in.mov",
    originalFilename := some "movie.avi", format := some "mp4",
    originalSizeBytes := some 5, uploadedAt := none }

/-- A sample environment in which every external call succeeds. -/
def sampleEnvOK : Env :=
  { newId := "100-1", nowIso := "2025-01-01T00:00:00.000Z",
    doneNowIso := "2025-01-01T00:00:09.000Z",
    parseIso := fun _ => none,
    fetch := some ⟨some 5, some "2024-12-31T00:00:00.000Z"⟩,
    fetchErrMsg := "fetch boom",
    streamOk := true, streamErrMsg := "stream boom",
    ffmpeg := .exited 0, probe := none, statSize := 77,
    publishOk := true, publishErrMsg := "put boom" }

/-- The sample environment in which `ffmpeg` exits with code 1. -/
def sampleEnvFfmpegFail : Env := { sampleEnvOK with ffmpeg := .exited 1 }

/-- Record of owner `a`, raw id `1`. -/
def sampleRecA : Item :=
  [("qut-username", .str "n1@qut.edu.au"), ("videoId", .str "a#1"),
   ("id", .str "1"), ("ownerKey", .str "a"), ("status", .str "done")]

/-- Record of owner `a#b` (a key containing the delimiter), raw id `1`. -/
def sampleRecB : Item :=
  [("qut-username", .str "n1@qut.edu.au"), ("videoId", .str "a#b#1"),
   ("id", .str "1"), ("ownerKey", .str "a#b"), ("status", .str "done")]

/-- A caller whose derived owner key is `a`. -/
def sampleUserA : Option Claims := some ⟨some "a", none⟩

/-- A sample `/start` request with no `s3Key`. -/
def sampleReqNoKey : StartReq := { sampleReq with s3Key := none }

/-! ## Branch characterizations of `runStart` -/

theorem runStart_eq_fetchFail (cfg : Config) (req : StartReq) (env : Env)
    (t0 : Table) (ownerKey : String)
    (hauth : ownerKeyFromReq req.user = some ownerKey)
    (hs3 : jsTruthy req.s3Key = true)
    (hF : env.fetch = none) :
    runStart cfg req env t0 =
      startCatch cfg ownerKey env.newId (startInputPath cfg env)
        (startOutPath cfg req env) env.fetchErrMsg
        (dlTable cfg req env t0 ownerKey)
        [seedTable cfg req env t0 ownerKey, dlTable cfg req env t0 ownerKey]
        [] [(cfg.s3Bucket, jsStrOr req.s3Key "")] := by
  unfold runStart
  simp [hauth, hs3, hF]

theorem runStart_eq_streamFail (cfg : Config) (req : StartReq) (env : Env)
    (t0 : Table) (ownerKey : String) (fi : FetchInfo)
    (hauth : ownerKeyFromReq req.user = some ownerKey)
    (hs3 : jsTruthy req.s3Key = true)
    (hF : env.fetch = some fi)
    (hS : env.streamOk = false) :
    runStart cfg req env t0 =
      startCatch cfg ownerKey env.newId (startInputPath cfg env)
        (startOutPath cfg req env) env.streamErrMsg
        (sizeTable cfg req env t0 ownerKey fi)
        [seedTable cfg req env t0 ownerKey, dlTable cfg req env t0 ownerKey,
         sizeTable cfg req env t0 ownerKey fi]
        [startInputPath cfg env] [(cfg.s3Bucket, jsStrOr req.s3Key "")] := by
  unfold runStart
  simp [hauth, hs3, hF, hS]

theorem runStart_eq_spawnFail (cfg : Config) (req : StartReq) (env : Env)
    (t0 : Table) (ownerKey : String) (fi : FetchInfo) (m : String)
    (hauth : ownerKeyFromReq req.user = some ownerKey)
    (hs3 : jsTruthy req.s3Key = true)
    (hF : env.fetch = some fi)
    (hS : env.streamOk = true)
    (hff : env.ffmpeg = .spawnErr m) :
    runStart cfg req env t0 =
      startCatch cfg ownerKey env.newId (startInputPath cfg env)
        (startOutPath cfg req env) m
        (procTable cfg req env t0 ownerKey fi)
        [seedTable cfg req env t0 ownerKey, dlTable cfg req env t0 ownerKey,
         sizeTable cfg req env t0 ownerKey fi, procTable cfg req env t0 ownerKey fi]
        [startInputPath cfg env] [(cfg.s3Bucket, jsStrOr req.s3Key "")] := by
  unfold runStart
  simp [hauth, hs3, hF, hS, hff]

theorem runStart_eq_exitFail (cfg : Config) (req : StartReq) (env : Env)
    (t0 : Table) (ownerKey : String) (fi : FetchInfo) (code : Nat)
    (hauth : ownerKeyFromReq req.user = some ownerKey)
    (hs3 : jsTruthy req.s3Key = true)
    (hF : env.fetch = some fi)
    (hS : env.streamOk = true)
    (hff : env.ffmpeg = .exited code)
    (hc : code ≠ 0) :
    runStart cfg req env t0 =
      startCatch cfg ownerKey env.newId (startInputPath cfg env)
        (startOutPath cfg req env) ("ffmpeg failed: " ++ toString code)
        (procTable cfg req env t0 ownerKey fi)
        [seedTable cfg req env t0 ownerKey, dlTable cfg req env t0 ownerKey,
         sizeTable cfg req env t0 ownerKey fi, procTable cfg req env t0 ownerKey fi]
        [startInputPath cfg env] [(cfg.s3Bucket, jsStrOr req.s3Key "")] := by
  unfold runStart
  simp [hauth, hs3, hF, hS, hff, hc]

theorem runStart_eq_publishFail (cfg : Config) (req : StartReq) (env : Env)
    (t0 : Table) (ownerKey : String) (fi : FetchInfo)
    (hauth : ownerKeyFromReq req.user = some ownerKey)
    (hs3 : jsTruthy req.s3Key = true)
    (hF : env.fetch = some fi)
    (hS : env.streamOk = true)
    (hff : env.ffmpeg = .exited 0)
    (hP : env.publishOk = false) :
    runStart cfg req env t0 =
      startCatch cfg ownerKey env.newId (startInputPath cfg env)
        (startOutPath cfg req env) env.publishErrMsg
        (upTable cfg req env t0 ownerKey fi)
        [seedTable cfg req env t0 ownerKey, dlTable cfg req env t0 ownerKey,
         sizeTable cfg req env t0 ownerKey fi, procTable cfg req env t0 ownerKey fi,
         probeTable cfg req env t0 ownerKey fi, upTable cfg req env t0 ownerKey fi]
        [startInputPath cfg env, startOutPath cfg req env]
        [(cfg.s3Bucket, jsStrOr req.s3Key "")] := by
  unfold runStart
  simp [hauth, hs3, hF, hS, hff, hP]

theorem runStart_eq_success (cfg : Config) (req : StartReq) (env : Env)
    (t0 : Table) (ownerKey : String) (fi : FetchInfo)
    (hauth : ownerKeyFromReq req.user = some ownerKey)
    (hs3 : jsTruthy req.s3Key = true)
    (hF : env.fetch = some fi)
    (hS : env.streamOk = true)
    (hff : env.ffmpeg = .exited 0)
    (hP : env.publishOk = true) :
    runStart cfg req env t0 =
      { httpStatus := 200
        body := .ok env.newId (startExt req)
        table := doneTable cfg req env t0 ownerKey fi
        trace := [seedTable cfg req env t0 ownerKey, dlTable cfg req env t0 ownerKey,
          sizeTable cfg req env t0 ownerKey fi, procTable cfg req env t0 ownerKey fi,
          probeTable cfg req env t0 ownerKey fi, upTable cfg req env t0 ownerKey fi,
          doneTable cfg req env t0 ownerKey fi]
        scratch := ((([startInputPath cfg env, startOutPath cfg req env] : List String).erase
          (startInputPath cfg env)).erase (startOutPath cfg req env))
        s3Gets := [(cfg.s3Bucket, jsStrOr req.s3Key "")]
        s3Puts := [{ bucket := cfg.s3Bucket
                     key := outKeyFor cfg ownerKey env.newId (startExt req)
                     contentType := contentTypeFor (startExt req)
                     contentDisposition := "attachment; filename=\"" ++
                       safeFilename req.originalFilename (startExt req) ++ "\""
                     metaOriginalFilename := jsStrOr req.originalFilename "upload" }] } := by
  unfold runStart
  simp [hauth, hs3, hF, hS, hff, hP]

/-! ## Claim theorems -/

/-- C10: an authenticated `/start` request without a source object key
is answered 400 before any side effect — the metadata store is
untouched, no job record or id is produced, and no storage operation
is performed. -/
theorem start_missing_s3Key_no_side_effects (cfg : Config) (req : StartReq)
    (env : Env) (t0 : Table) (ownerKey : String)
    (hauth : ownerKeyFromReq req.user = some ownerKey)
    (hs3 : jsTruthy req.s3Key = false) :
    (runStart cfg req env t0).httpStatus = 400 ∧
    (runStart cfg req env t0).body = .badReq "s3Key required" ∧
    (runStart cfg req env t0).table = t0 ∧
    (runStart cfg req env t0).trace = [] ∧
    (runStart cfg req env t0).scratch = [] ∧
    (runStart cfg req env t0).s3Gets = [] ∧
    (runStart cfg req env t0).s3Puts = [] := by
  unfold runStart
  simp [hauth, hs3]

/-- Witness for C10 at a concrete request lacking `s3Key`. -/
theorem start_missing_s3Key_no_side_effects_witness :
    (runStart sampleCfg sampleReqNoKey sampleEnvOK []).httpStatus = 400 ∧
    (runStart sampleCfg sampleReqNoKey sampleEnvOK []).table = [] := by
  have h := start_missing_s3Key_no_side_effects sampleCfg sampleReqNoKey
    sampleEnvOK [] "alice@example.com" (by decide) (by decide)
  exact ⟨h.1, h.2.2.1⟩

/-- C8: every `/start` request — succeeding or failing at any stage —
leaves no scratch file behind. -/
theorem start_cleans_scratch (cfg : Config) (req : StartReq) (env : Env)
    (t0 : Table) : (runStart cfg req env t0).scratch = [] := by
  rcases hA : ownerKeyFromReq req.user with _ | ownerKey
  · unfold runStart; simp [hA]
  · by_cases hs3 : jsTruthy req.s3Key
    · rcases hF : env.fetch with _ | fi
      · rw [runStart_eq_fetchFail cfg req env t0 ownerKey hA hs3 hF]
        simp [startCatch]
      · by_cases hS : env.streamOk
        · rcases hff : env.ffmpeg with code | m
          · by_cases hc : code = 0
            · subst hc
              by_cases hP : env.publishOk
              · rw [runStart_eq_success cfg req env t0 ownerKey fi hA hs3 hF hS hff hP]
                simp
              · rw [runStart_eq_publishFail cfg req env t0 ownerKey fi hA hs3 hF hS hff
                  (by simpa using hP)]
                simp [startCatch]
            · rw [runStart_eq_exitFail cfg req env t0 ownerKey fi code hA hs3 hF hS hff hc]
              simp [startCatch]
          · rw [runStart_eq_spawnFail cfg req env t0 ownerKey fi m hA hs3 hF hS hff]
            simp [startCatch]
        · rw [runStart_eq_streamFail cfg req env t0 ownerKey fi hA hs3 hF
            (by simpa using hS)]
          simp [startCatch]
    · unfold runStart
      have hs3f : jsTruthy req.s3Key = false := by simpa using hs3
      simp [hA, hs3f]

/-- C9: a metadata patch never changes the partition key or the
composite record key (updates naming them are dropped), and a field
map whose remaining entries are empty performs no store operation. -/
theorem patchMeta_keys_immutable_and_empty_noop (cfg : Config) (t : Table)
    (ownerKey id : String) (updates : List (String × AttrVal)) (it : Item)
    (hget : getMeta cfg t ownerKey id = some it) :
    (∃ it', getMeta cfg (patchMeta cfg t ownerKey id updates) ownerKey id = some it' ∧
      it'.lookup "qut-username" = it.lookup "qut-username" ∧
      it'.lookup "videoId" = it.lookup "videoId") ∧
    ((∀ p ∈ updates, p.1 = "qut-username" ∨ p.1 = "videoId") →
      patchMeta cfg t ownerKey id updates = t) := by
  constructor
  · refine ⟨applyUpdates it (patchSets updates),
      getMeta_patchMeta_of_get cfg t ownerKey id updates it hget, ?_, ?_⟩
    · exact lookup_applyUpdates_of_not_mem _ it "qut-username"
        (fun p hp => (patchSets_names updates p hp).1)
    · exact lookup_applyUpdates_of_not_mem _ it "videoId"
        (fun p hp => (patchSets_names updates p hp).2)
  · intro hall
    have hnil : patchSets updates = [] := by
      apply List.filter_eq_nil_iff.mpr
      intro p hp
      rcases hall p hp with h | h <;> simp [h]
    unfold patchMeta
    simp [hnil]

/-- Witness for C9 at a concrete table and update map naming only the
key attributes. -/
theorem patchMeta_keys_immutable_and_empty_noop_witness :
    (∃ it', getMeta sampleCfg
        (patchMeta sampleCfg [sampleRecA] "a" "1"
          [("qut-username", .str "evil"), ("videoId", .str "evil#1")]) "a" "1" =
          some it' ∧
      it'.lookup "qut-username" = sampleRecA.lookup "qut-username" ∧
      it'.lookup "videoId" = sampleRecA.lookup "videoId") ∧
    ((∀ p ∈ [(("qut-username" : String), AttrVal.str "evil"),
        (("videoId" : String), AttrVal.str "evil#1")],
        p.1 = "qut-username" ∨ p.1 = "videoId") →
      patchMeta sampleCfg [sampleRecA] "a" "1"
        [("qut-username", .str "evil"), ("videoId", .str "evil#1")] = [sampleRecA]) :=
  patchMeta_keys_immutable_and_empty_noop sampleCfg [sampleRecA] "a" "1"
    [("qut-username", .str "evil"), ("videoId", .str "evil#1")] sampleRecA (by decide)

/-- C5 counterexample: patching a (ownerKey, jobId) pair with no
record does not fail and does not leave the store unchanged — the
condition-free `UpdateItem` upserts a fresh record holding the key
attributes and the patched fields. -/
theorem patchMeta_missing_record_upserts_cex :
    getMeta sampleCfg [] "a" "1" = none ∧
    patchMeta sampleCfg ([] : Table) "a" "1" [("status", .str "error")] =
      [[("qut-username", .str "n1@qut.edu.au"), ("videoId", .str "a#1"),
        ("status", .str "error")]] ∧
    getMeta sampleCfg
      (patchMeta sampleCfg ([] : Table) "a" "1" [("status", .str "error")]) "a" "1" =
      some [("qut-username", .str "n1@qut.edu.au"), ("videoId", .str "a#1"),
        ("status", .str "error")] := by
  decide

/-- C5 (amended): patching a nonexistent record with a non-empty field
map does not fail with a not-found error; it creates a new record made
of the key attributes plus the patched fields (DynamoDB upsert), so
the store does change. -/
theorem patchMeta_missing_record_upserts (cfg : Config) (t : Table)
    (ownerKey id : String) (updates : List (String × AttrVal))
    (hmiss : t.any (keyMatches cfg.fixedPkVal (composeVideoId ownerKey id)) = false)
    (hne : (patchSets updates).isEmpty = false) :
    getMeta cfg t ownerKey id = none ∧
    patchMeta cfg t ownerKey id updates =
      t ++ [applyUpdates
        [("qut-username", .str cfg.fixedPkVal),
         ("videoId", .str (composeVideoId ownerKey id))] (patchSets updates)] := by
  constructor
  · unfold getMeta ddbGet
    apply List.find?_eq_none.mpr
    intro x hx
    intro hK
    have := List.any_eq_true.mpr ⟨x, hx, hK⟩
    rw [hmiss] at this
    exact Bool.false_ne_true this
  · unfold patchMeta ddbUpdate
    simp [hne, hmiss]

/-- Witness for the amended C5 on the empty store. -/
theorem patchMeta_missing_record_upserts_witness :
    getMeta sampleCfg [] "a" "1" = none ∧
    patchMeta sampleCfg ([] : Table) "a" "1" [("status", .str "error")] =
      [] ++ [applyUpdates
        [("qut-username", .str sampleCfg.fixedPkVal),
         ("videoId", .str (composeVideoId "a" "1"))]
        (patchSets [("status", .str "error")])] :=
  patchMeta_missing_record_upserts sampleCfg [] "a" "1"
    [("status", .str "error")] (by decide) (by decide)

/-- C6: a status request for a job id owned by a different owner key
returns the not-found result (never the record), and the same
not-found result the caller would get if the record did not exist at
all; the two composed keys can never coincide for the same raw id. -/
theorem status_other_owner_not_found (cfg : Config) (t : Table)
    (user : Option Claims) (caller ownerB j : String) (rec : Item)
    (hauth : ownerKeyFromReq user = some caller)
    (hne : ownerB ≠ caller)
    (_hrec : rec ∈ t ∧ rec.lookup "videoId" = some (.str (composeVideoId ownerB j)))
    (hmiss : ∀ it ∈ t, keyMatches cfg.fixedPkVal (composeVideoId caller j) it = false) :
    composeVideoId caller j ≠ composeVideoId ownerB j ∧
    statusRoute cfg t user j = .notFound ∧
    statusRoute cfg (t.erase rec) user j = .notFound := by
  refine ⟨fun h => hne ((composeVideoId_inj_left caller ownerB j h).symm), ?_, ?_⟩
  · have hnone : getMeta cfg t caller j = none := by
      unfold getMeta ddbGet
      apply List.find?_eq_none.mpr
      intro x hx hK
      rw [hmiss x hx] at hK
      exact Bool.false_ne_true hK
    unfold statusRoute
    simp [hauth, hnone]
  · have hnone : getMeta cfg (t.erase rec) caller j = none := by
      unfold getMeta ddbGet
      apply List.find?_eq_none.mpr
      intro x hx hK
      rw [hmiss x (List.mem_of_mem_erase hx)] at hK
      exact Bool.false_ne_true hK
    unfold statusRoute
    simp [hauth, hnone]

/-- Witness for C6: owner `a#b` holds raw id `1`; caller `a` gets
not-found. -/
theorem status_other_owner_not_found_witness :
    composeVideoId "a" "1" ≠ composeVideoId "a#b" "1" ∧
    statusRoute sampleCfg [sampleRecB] sampleUserA "1" = .notFound ∧
    statusRoute sampleCfg ([sampleRecB].erase sampleRecB) sampleUserA "1" = .notFound :=
  status_other_owner_not_found sampleCfg [sampleRecB] sampleUserA "a" "a#b" "1"
    sampleRecB (by decide) (by decide) (by decide) (by decide)

/-- C1 counterexample: with the fixed partition value shared, an owner
key containing the delimiter (`a#b`) holding the same raw id `1` is
returned by the listing of owner `a`, although the two owners differ —
profix isolation fails when the delimiter occurs inside an owner key. -/
theorem list_leaks_on_delimiter_cex :
    ownerKeyFromReq sampleUserA = some "a" ∧
    ("a#b" : String) ≠ "a" ∧
    sampleRecA.lookup "videoId" = some (.str (composeVideoId "a" "1")) ∧
    sampleRecB.lookup "videoId" = some (.str (composeVideoId "a#b" "1")) ∧
    sampleRecB.lookup "ownerKey" = some (.str "a#b") ∧
    listRoute sampleCfg [sampleRecA, sampleRecB] sampleUserA =
      .ok [sampleRecA, sampleRecB] := by
  decide

/-- C1 (amended): provided neither owner key contains the `#`
delimiter, the listing for `ownerA` only returns records whose
composite key begins with `ownerA#`, and never a record of a different
owner `ownerB` — even for a colliding raw job id. -/
theorem list_prefix_isolated (cfg : Config) (t : Table) (user : Option Claims)
    (ownerA ownerB j : String)
    (hauth : ownerKeyFromReq user = some ownerA)
    (hA : '#' ∉ ownerA.data) (hB : '#' ∉ ownerB.data)
    (hne : ownerA ≠ ownerB) :
    ∃ items, listRoute cfg t user = .ok items ∧
      (∀ it ∈ items, ∃ v, it.lookup "videoId" = some (.str v) ∧
        beginsWith v (ownerA ++ "#") = true) ∧
      (∀ it ∈ items, ¬ it.lookup "videoId" = some (.str (composeVideoId ownerB j))) := by
  refine ⟨listQuery cfg t ownerA, ?_, ?_, ?_⟩
  · unfold listRoute
    rw [hauth]
  · intro it hit
    have hcond := (List.mem_filter.mp hit).2
    rw [Bool.and_eq_true] at hcond
    rcases hv : it.lookup "videoId" with _ | v
    · rw [hv] at hcond
      exact absurd hcond.2 (by simp)
    · cases v with
      | str s =>
        refine ⟨s, rfl, ?_⟩
        have := hcond.2
        rw [hv] at this
        simpa using this
      | num q =>
        rw [hv] at hcond
        exact absurd hcond.2 (by simp)
      | nul =>
        rw [hv] at hcond
        exact absurd hcond.2 (by simp)
  · intro it hit hvid
    have hcond := (List.mem_filter.mp hit).2
    rw [Bool.and_eq_true] at hcond
    have := hcond.2
    rw [hvid] at this
    simp only [cross_owner_beginsWith_false ownerA ownerB j hA hB hne] at this
    exact Bool.false_ne_true this

/-- Witness for the amended C1 with delimiter-free owners `a` and `b`. -/
theorem list_prefix_isolated_witness :
    ∃ items, listRoute sampleCfg [sampleRecA] sampleUserA = .ok items ∧
      (∀ it ∈ items, ∃ v, it.lookup "videoId" = some (.str v) ∧
        beginsWith v ("a" ++ "#") = true) ∧
      (∀ it ∈ items, ¬ it.lookup "videoId" = some (.str (composeVideoId "b" "1"))) :=
  list_prefix_isolated sampleCfg [sampleRecA] sampleUserA "a" "b" "1"
    (by decide) (by decide) (by decide) (by decide)

/-- C2 counterexample: when `ffmpeg` exits non-zero the record ends in
status `error` — but with `progress` reset to 0, not frozen at its
pre-failure value 20 (held at the `processing` stage); nothing is
published. -/
theorem start_ffmpeg_nonzero_cex :
    (getMeta sampleCfg
      ((runStart sampleCfg sampleReq sampleEnvFfmpegFail []).trace.getD 3 [])
      "alice@example.com" "100-1").map (fun it => it.lookup "progress") =
      some (some (.num 20)) ∧
    (getMeta sampleCfg (runStart sampleCfg sampleReq sampleEnvFfmpegFail []).table
      "alice@example.com" "100-1").map
        (fun it => (it.lookup "status", it.lookup "progress")) =
      some (some (.str "error"), some (.num 0)) ∧
    (AttrVal.num 0) ≠ (AttrVal.num 20) ∧
    (runStart sampleCfg sampleReq sampleEnvFfmpegFail []).s3Puts = [] := by
  decide

/-- C2 (amended): when the external tool exits non-zero, the job ends
in status `error` with its progress reset to 0 (the error message
recorded), the request is answered 500, and no object is published at
the output location. -/
theorem start_ffmpeg_nonzero_errors (cfg : Config) (req : StartReq) (env : Env)
    (t0 : Table) (ownerKey : String) (fi : FetchInfo) (code : Nat)
    (hauth : ownerKeyFromReq req.user = some ownerKey)
    (hs3 : jsTruthy req.s3Key = true)
    (hF : env.fetch = some fi)
    (hS : env.streamOk = true)
    (hff : env.ffmpeg = .exited code)
    (hc : code ≠ 0) :
    (runStart cfg req env t0).httpStatus = 500 ∧
    (runStart cfg req env t0).s3Puts = [] ∧
    ∃ it, getMeta cfg (runStart cfg req env t0).table ownerKey env.newId = some it ∧
      it.lookup "status" = some (.str "error") ∧
      it.lookup "progress" = some (.num 0) ∧
      it.lookup "error" = some (.str ("ffmpeg failed: " ++ toString code)) := by
  rw [runStart_eq_exitFail cfg req env t0 ownerKey fi code hauth hs3 hF hS hff hc]
  refine ⟨rfl, rfl, errItemFrom (procItem cfg req env ownerKey fi)
    ("ffmpeg failed: " ++ toString code), ?_, ?_, ?_, ?_⟩
  · exact getMeta_startCatch cfg ownerKey env.newId (startInputPath cfg env)
      (startOutPath cfg req env) ("ffmpeg failed: " ++ toString code)
      (procTable cfg req env t0 ownerKey fi) _ _ _
      (procItem cfg req env ownerKey fi) (getMeta_procTable cfg req env t0 ownerKey fi)
  · exact (errItemFrom_facts _ _).1
  · exact (errItemFrom_facts _ _).2.1
  · unfold errItemFrom
    simp [lookup_setAttr_ne]

/-- Witness for the amended C2 at the sample failing environment. -/
theorem start_ffmpeg_nonzero_errors_witness :
    (runStart sampleCfg sampleReq sampleEnvFfmpegFail []).httpStatus = 500 ∧
    (runStart sampleCfg sampleReq sampleEnvFfmpegFail []).s3Puts = [] ∧
    ∃ it, getMeta sampleCfg (runStart sampleCfg sampleReq sampleEnvFfmpegFail []).table
        "alice@example.com" sampleEnvFfmpegFail.newId = some it ∧
      it.lookup "status" = some (.str "error") ∧
      it.lookup "progress" = some (.num 0) ∧
      it.lookup "error" = some (.str ("ffmpeg failed: " ++ toString 1)) :=
  start_ffmpeg_nonzero_errors sampleCfg sampleReq sampleEnvFfmpegFail []
    "alice@example.com" ⟨some 5, some "2024-12-31T00:00:00.000Z"⟩ 1
    (by decide) (by decide) (by decide) (by decide) (by decide) (by decide)

/-- C3 counterexample: for original filename `movie.avi` and target
format `mp4`, the published disposition filename is `movie.avi` — it
keeps the original extension `.avi` instead of being forced to the
target `.mp4`. -/
theorem publish_filename_keeps_original_ext_cex :
    startExt sampleReq = "mp4" ∧
    (runStart sampleCfg sampleReq sampleEnvOK []).s3Puts.map
      (fun p => p.contentDisposition) =
      ["attachment; filename=\"movie.avi\""] ∧
    safeFilename (some "movie.avi") "mp4" = "movie.avi" ∧
    extname "movie.avi" = ".avi" ∧
    (".avi" : String) ≠ ".mp4" := by
  decide

/-- C3 (amended): the published disposition filename is
`safeFilename(originalFilename, targetExt)`, whose extension is taken
from the original filename whenever it has one; the target extension
is used only as a fallback for extensionless names. -/
theorem publish_filename_from_original (cfg : Config) (req : StartReq) (env : Env)
    (t0 : Table) (ownerKey : String) (fi : FetchInfo)
    (hauth : ownerKeyFromReq req.user = some ownerKey)
    (hs3 : jsTruthy req.s3Key = true)
    (hF : env.fetch = some fi)
    (hS : env.streamOk = true)
    (hff : env.ffmpeg = .exited 0)
    (hP : env.publishOk = true) :
    (runStart cfg req env t0).s3Puts.map (fun p => p.contentDisposition) =
      ["attachment; filename=\"" ++
        safeFilename req.originalFilename (startExt req) ++ "\""] ∧
    ∃ base, safeFilename req.originalFilename (startExt req) =
      base ++ "." ++
        (if ((extname (jsStrOr req.originalFilename "")).drop 1).isEmpty
         then startExt req
         else (extname (jsStrOr req.originalFilename "")).drop 1) := by
  constructor
  · rw [runStart_eq_success cfg req env t0 ownerKey fi hauth hs3 hF hS hff hP]
    rfl
  · refine ⟨?_, ?_⟩
    · exact
        if ((String.mk (sanitizeRun false
            (basenameSuffix (jsStrOr req.originalFilename
              ("video." ++
                (if ((extname (jsStrOr req.originalFilename "")).drop 1).isEmpty
                 then startExt req
                 else (extname (jsStrOr req.originalFilename "")).drop 1)))
              ("." ++
                (if ((extname (jsStrOr req.originalFilename "")).drop 1).isEmpty
                 then startExt req
                 else (extname (jsStrOr req.originalFilename "")).drop 1))).data)).take 100).isEmpty
        then "video"
        else ((String.mk (sanitizeRun false
            (basenameSuffix (jsStrOr req.originalFilename
              ("video." ++
                (if ((extname (jsStrOr req.originalFilename "")).drop 1).isEmpty
                 then startExt req
                 else (extname (jsStrOr req.originalFilename "")).drop 1)))
              ("." ++
                (if ((extname (jsStrOr req.originalFilename "")).drop 1).isEmpty
                 then startExt req
                 else (extname (jsStrOr req.originalFilename "")).drop 1))).data)).take 100)
    · rfl

/-- Witness for the amended C3 at the sample success run. -/
theorem publish_filename_from_original_witness :
    (runStart sampleCfg sampleReq sampleEnvOK []).s3Puts.map
      (fun p => p.contentDisposition) =
      ["attachment; filename=\"" ++
        safeFilename sampleReq.originalFilename (startExt sampleReq) ++ "\""] ∧
    ∃ base, safeFilename sampleReq.originalFilename (startExt sampleReq) =
      base ++ "." ++
        (if ((extname (jsStrOr sampleReq.originalFilename "")).drop 1).isEmpty
         then startExt sampleReq
         else (extname (jsStrOr sampleReq.originalFilename "")).drop 1) :=
  publish_filename_from_original sampleCfg sampleReq sampleEnvOK []
    "alice@example.com" ⟨some 5, some "2024-12-31T00:00:00.000Z"⟩
    (by decide) (by decide) (by decide) (by decide) (by decide) (by decide)

/-- C4 counterexample: starting with format `AVI` — outside the closed
set the code maps to dedicated content types — stores `outputFormat`
`avi` (the lowercased input), not the default `mp4`. -/
theorem format_not_normalized_to_default_cex :
    (getMeta sampleCfg
      (runStart sampleCfg { sampleReq with format := some "AVI" } sampleEnvOK []).table
      "alice@example.com" "100-1").map (fun it => it.lookup "outputFormat") =
      some (some (.str "avi")) ∧
    ("avi" : String) ≠ "mp4" ∧
    contentTypeFor "avi" = "application/octet-stream" ∧
    contentTypeFor "mp4" = "video/mp4" := by
  decide

/-- C4 (amended): the stored `outputFormat` of the created record is
`guessExt(format || 'mp4')` — a missing or empty format defaults to
`mp4`, and any other format string is merely lowercased and stored
as-is, with no closed-set validation. -/
theorem stored_format_is_lowercased_input (cfg : Config) (req : StartReq)
    (env : Env) (t0 : Table) (ownerKey : String)
    (hauth : ownerKeyFromReq req.user = some ownerKey)
    (hs3 : jsTruthy req.s3Key = true) :
    (runStart cfg req env t0).trace.head? = some (seedTable cfg req env t0 ownerKey) ∧
    (∃ it, getMeta cfg (seedTable cfg req env t0 ownerKey) ownerKey env.newId =
        some it ∧ it.lookup "outputFormat" = some (.str (startExt req))) ∧
    (∀ f, req.format = some f → f.isEmpty = false → startExt req = jsToLower f) ∧
    ((req.format = none ∨ req.format = some "") → startExt req = "mp4") := by
  refine ⟨?_, ?_, ?_, ?_⟩
  · rcases hF : env.fetch with _ | fi
    · rw [runStart_eq_fetchFail cfg req env t0 ownerKey hauth hs3 hF]; rfl
    · by_cases hS : env.streamOk
      · rcases hff : env.ffmpeg with code | m
        · by_cases hc : code = 0
          · subst hc
            by_cases hP : env.publishOk
            · rw [runStart_eq_success cfg req env t0 ownerKey fi hauth hs3 hF hS hff hP]
              rfl
            · rw [runStart_eq_publishFail cfg req env t0 ownerKey fi hauth hs3 hF hS hff
                (by simpa using hP)]
              rfl
          · rw [runStart_eq_exitFail cfg req env t0 ownerKey fi code hauth hs3 hF hS hff hc]
            rfl
        · rw [runStart_eq_spawnFail cfg req env t0 ownerKey fi m hauth hs3 hF hS hff]
          rfl
      · rw [runStart_eq_streamFail cfg req env t0 ownerKey fi hauth hs3 hF
          (by simpa using hS)]
        rfl
  · refine ⟨seedFull cfg req env ownerKey, getMeta_seedTable cfg req env t0 ownerKey, ?_⟩
    cases h : ownerEmailFromReq req.user <;> simp [seedFull, h, List.lookup]
  · intro f hf hfe
    unfold startExt guessExt jsStrOr
    rw [hf]
    simp [hfe]
  · intro h
    rcases h with h | h <;> unfold startExt guessExt jsStrOr <;> rw [h] <;> decide

/-- Witness for the amended C4 at a request whose format is `AVI`. -/
theorem stored_format_is_lowercased_input_witness :
    (runStart sampleCfg { sampleReq with format := some "AVI" } sampleEnvOK []).trace.head? =
      some (seedTable sampleCfg { sampleReq with format := some "AVI" } sampleEnvOK []
        "alice@example.com") ∧
    (∃ it, getMeta sampleCfg (seedTable sampleCfg
        { sampleReq with format := some "AVI" } sampleEnvOK [] "alice@example.com")
        "alice@example.com" sampleEnvOK.newId = some it ∧
      it.lookup "outputFormat" =
        some (.str (startExt { sampleReq with format := some "AVI" }))) ∧
    (∀ f, ({ sampleReq with format := some "AVI" } : StartReq).format = some f →
      f.isEmpty = false →
      startExt { sampleReq with format := some "AVI" } = jsToLower f) ∧
    ((({ sampleReq with format := some "AVI" } : StartReq).format = none ∨
       ({ sampleReq with format := some "AVI" } : StartReq).format = some "") →
      startExt { sampleReq with format := some "AVI" } = "mp4") :=
  stored_format_is_lowercased_input sampleCfg { sampleReq with format := some "AVI" }
    sampleEnvOK [] "alice@example.com" (by decide) (by decide)

/-! ## C7 helper lemmas -/

theorem startCatch_trace (cfg : Config) (ownerKey id inputPath outPath msg : String)
    (t : Table) (trace : List Table) (scratch : List String)
    (gets : List (String × String)) :
    (startCatch cfg ownerKey id inputPath outPath msg t trace scratch gets).trace =
      trace ++ [(startCatch cfg ownerKey id inputPath outPath msg
        t trace scratch gets).table] := rfl

/-- The record invariant holds at any record whose status is a non-done
string and whose output bucket field is absent. -/
theorem recInv_of_facts (it : Item) (s : String)
    (hst : it.lookup "status" = some (.str s)) (hs : s ≠ "done")
    (hb : it.lookup "s3Bucket" = none) :
    (outputPopulated it = true ↔ it.lookup "status" = some (.str "done")) := by
  simp [outputPopulated, hb, hst, hs]

/-- The record invariant holds after an error patch applied to a
record without an output bucket field. -/
theorem recInv_err (it : Item) (msg : String) (hb : it.lookup "s3Bucket" = none) :
    (outputPopulated (errItemFrom it msg) = true ↔
      (errItemFrom it msg).lookup "status" = some (.str "done")) := by
  obtain ⟨h1, _, h3, _⟩ := errItemFrom_facts it msg
  exact recInv_of_facts _ "error" h1 (by decide) (h3.trans hb)

/-- The record invariant holds at the `done` record, whose output
location is populated. -/
theorem recInv_done (cfg : Config) (req : StartReq) (env : Env)
    (ownerKey : String) (fi : FetchInfo) :
    (outputPopulated (doneItem cfg req env ownerKey fi) = true ↔
      (doneItem cfg req env ownerKey fi).lookup "status" = some (.str "done")) := by
  obtain ⟨h1, h2, h3⟩ := doneItem_facts cfg req env ownerKey fi
  simp [outputPopulated, h1, h2, h3]

/-- C7: at every table state a `/start` request writes, the job's
output location descriptor (`s3Bucket`/`s3Key`) is populated exactly
when its status is `done`; and a presigned download handle is only
ever issued for a record in status `done`. -/
theorem output_location_iff_done (cfg : Config) (req : StartReq) (env : Env)
    (t0 : Table) (ownerKey : String)
    (hauth : ownerKeyFromReq req.user = some ownerKey)
    (hs3 : jsTruthy req.s3Key = true) :
    (∀ tr ∈ (runStart cfg req env t0).trace, ∀ it,
      getMeta cfg tr ownerKey env.newId = some it →
      (outputPopulated it = true ↔ it.lookup "status" = some (.str "done"))) ∧
    (∀ (t' : Table) (user' : Option Claims) (id' b k d : String),
      presignRoute cfg t' user' id' = .ok b k d →
      ∃ o' it, ownerKeyFromReq user' = some o' ∧ getMeta cfg t' o' id' = some it ∧
        it.lookup "status" = some (.str "done")) := by
  constructor
  · intro tr htr it hit
    rcases hF : env.fetch with _ | fi
    · rw [runStart_eq_fetchFail cfg req env t0 ownerKey hauth hs3 hF,
        startCatch_trace] at htr
      simp only [List.mem_append, List.mem_cons, List.mem_singleton,
        List.not_mem_nil, or_false] at htr
      rcases htr with (rfl | rfl) | rfl
      · rw [getMeta_seedTable cfg req env t0 ownerKey] at hit
        obtain rfl := Option.some.inj hit
        obtain ⟨h1, h2, _⟩ := seedFull_facts cfg req env ownerKey
        exact recInv_of_facts _ "queued" h1 (by decide) h2
      · rw [getMeta_dlTable cfg req env t0 ownerKey] at hit
        obtain rfl := Option.some.inj hit
        obtain ⟨h1, h2, _⟩ := dlItem_facts cfg req env ownerKey
        exact recInv_of_facts _ "downloading" h1 (by decide) h2
      · rw [getMeta_startCatch cfg ownerKey env.newId _ _ _ _ _ _ _ _
          (getMeta_dlTable cfg req env t0 ownerKey)] at hit
        obtain rfl := Option.some.inj hit
        exact recInv_err _ _ (dlItem_facts cfg req env ownerKey).2.1
    · by_cases hS : env.streamOk
      · rcases hff : env.ffmpeg with code | m
        · by_cases hc : code = 0
          · subst hc
            by_cases hP : env.publishOk
            · rw [runStart_eq_success cfg req env t0 ownerKey fi hauth hs3 hF hS hff hP] at htr
              simp only [List.mem_cons, List.not_mem_nil, or_false] at htr
              rcases htr with rfl | rfl | rfl | rfl | rfl | rfl | rfl
              · rw [getMeta_seedTable cfg req env t0 ownerKey] at hit
                obtain rfl := Option.some.inj hit
                obtain ⟨h1, h2, _⟩ := seedFull_facts cfg req env ownerKey
                exact recInv_of_facts _ "queued" h1 (by decide) h2
              · rw [getMeta_dlTable cfg req env t0 ownerKey] at hit
                obtain rfl := Option.some.inj hit
                obtain ⟨h1, h2, _⟩ := dlItem_facts cfg req env ownerKey
                exact recInv_of_facts _ "downloading" h1 (by decide) h2
              · rw [getMeta_sizeTable cfg req env t0 ownerKey fi] at hit
                obtain rfl := Option.some.inj hit
                obtain ⟨h1, h2, _⟩ := sizeItem_facts cfg req env ownerKey fi
                exact recInv_of_facts _ "downloading" h1 (by decide) h2
              · rw [getMeta_procTable cfg req env t0 ownerKey fi] at hit
                obtain rfl := Option.some.inj hit
                obtain ⟨h1, h2, _⟩ := procItem_facts cfg req env ownerKey fi
                exact recInv_of_facts _ "processing" h1 (by decide) h2
              · rw [getMeta_probeTable cfg req env t0 ownerKey fi] at hit
                obtain rfl := Option.some.inj hit
                obtain ⟨h1, h2, _⟩ := probeItem_facts cfg req env ownerKey fi
                exact recInv_of_facts _ "processing" h1 (by decide) h2
              · rw [getMeta_upTable cfg req env t0 ownerKey fi] at hit
                obtain rfl := Option.some.inj hit
                obtain ⟨h1, h2, _⟩ := upItem_facts cfg req env ownerKey fi
                exact recInv_of_facts _ "uploading" h1 (by decide) h2
              · rw [getMeta_doneTable cfg req env t0 ownerKey fi] at hit
                obtain rfl := Option.some.inj hit
                exact recInv_done cfg req env ownerKey fi
            · rw [runStart_eq_publishFail cfg req env t0 ownerKey fi hauth hs3 hF hS hff
                (by simpa using hP), startCatch_trace] at htr
              simp only [List.mem_append, List.mem_cons, List.mem_singleton,
                List.not_mem_nil, or_false] at htr
              rcases htr with (rfl | rfl | rfl | rfl | rfl | rfl) | rfl
              · rw [getMeta_seedTable cfg req env t0 ownerKey] at hit
                obtain rfl := Option.some.inj hit
                obtain ⟨h1, h2, _⟩ := seedFull_facts cfg req env ownerKey
                exact recInv_of_facts _ "queued" h1 (by decide) h2
              · rw [getMeta_dlTable cfg req env t0 ownerKey] at hit
                obtain rfl := Option.some.inj hit
                obtain ⟨h1, h2, _⟩ := dlItem_facts cfg req env ownerKey
                exact recInv_of_facts _ "downloading" h1 (by decide) h2
              · rw [getMeta_sizeTable cfg req env t0 ownerKey fi] at hit
                obtain rfl := Option.some.inj hit
                obtain ⟨h1, h2, _⟩ := sizeItem_facts cfg req env ownerKey fi
                exact recInv_of_facts _ "downloading" h1 (by decide) h2
              · rw [getMeta_procTable cfg req env t0 ownerKey fi] at hit
                obtain rfl := Option.some.inj hit
                obtain ⟨h1, h2, _⟩ := procItem_facts cfg req env ownerKey fi
                exact recInv_of_facts _ "processing" h1 (by decide) h2
              · rw [getMeta_probeTable cfg req env t0 ownerKey fi] at hit
                obtain rfl := Option.some.inj hit
                obtain ⟨h1, h2, _⟩ := probeItem_facts cfg req env ownerKey fi
                exact recInv_of_facts _ "processing" h1 (by decide) h2
              · rw [getMeta_upTable cfg req env t0 ownerKey fi] at hit
                obtain rfl := Option.some.inj hit
                obtain ⟨h1, h2, _⟩ := upItem_facts cfg req env ownerKey fi
                exact recInv_of_facts _ "uploading" h1 (by decide) h2
              · rw [getMeta_startCatch cfg ownerKey env.newId _ _ _ _ _ _ _ _
                  (getMeta_upTable cfg req env t0 ownerKey fi)] at hit
                obtain rfl := Option.some.inj hit
                exact recInv_err _ _ (upItem_facts cfg req env ownerKey fi).2.1
          · rw [runStart_eq_exitFail cfg req env t0 ownerKey fi code hauth hs3 hF hS hff hc,
              startCatch_trace] at htr
            simp only [List.mem_append, List.mem_cons, List.mem_singleton,
              List.not_mem_nil, or_false] at htr
            rcases htr with (rfl | rfl | rfl | rfl) | rfl
            · rw [getMeta_seedTable cfg req env t0 ownerKey] at hit
              obtain rfl := Option.some.inj hit
              obtain ⟨h1, h2, _⟩ := seedFull_facts cfg req env ownerKey
              exact recInv_of_facts _ "queued" h1 (by decide) h2
            · rw [getMeta_dlTable cfg req env t0 ownerKey] at hit
              obtain rfl := Option.some.inj hit
              obtain ⟨h1, h2, _⟩ := dlItem_facts cfg req env ownerKey
              exact recInv_of_facts _ "downloading" h1 (by decide) h2
            · rw [getMeta_sizeTable cfg req env t0 ownerKey fi] at hit
              obtain rfl := Option.some.inj hit
              obtain ⟨h1, h2, _⟩ := sizeItem_facts cfg req env ownerKey fi
              exact recInv_of_facts _ "downloading" h1 (by decide) h2
            · rw [getMeta_procTable cfg req env t0 ownerKey fi] at hit
              obtain rfl := Option.some.inj hit
              obtain ⟨h1, h2, _⟩ := procItem_facts cfg req env ownerKey fi
              exact recInv_of_facts _ "processing" h1 (by decide) h2
            · rw [getMeta_startCatch cfg ownerKey env.newId _ _ _ _ _ _ _ _
                (getMeta_procTable cfg req env t0 ownerKey fi)] at hit
              obtain rfl := Option.some.inj hit
              exact recInv_err _ _ (procItem_facts cfg req env ownerKey fi).2.1
        · rw [runStart_eq_spawnFail cfg req env t0 ownerKey fi m hauth hs3 hF hS hff,
            startCatch_trace] at htr
          simp only [List.mem_append, List.mem_cons, List.mem_singleton,
            List.not_mem_nil, or_false] at htr
          rcases htr with (rfl | rfl | rfl | rfl) | rfl
          · rw [getMeta_seedTable cfg req env t0 ownerKey] at hit
            obtain rfl := Option.some.inj hit
            obtain ⟨h1, h2, _⟩ := seedFull_facts cfg req env ownerKey
            exact recInv_of_facts _ "queued" h1 (by decide) h2
          · rw [getMeta_dlTable cfg req env t0 ownerKey] at hit
            obtain rfl := Option.some.inj hit
            obtain ⟨h1, h2, _⟩ := dlItem_facts cfg req env ownerKey
            exact recInv_of_facts _ "downloading" h1 (by decide) h2
          · rw [getMeta_sizeTable cfg req env t0 ownerKey fi] at hit
            obtain rfl := Option.some.inj hit
            obtain ⟨h1, h2, _⟩ := sizeItem_facts cfg req env ownerKey fi
            exact recInv_of_facts _ "downloading" h1 (by decide) h2
          · rw [getMeta_procTable cfg req env t0 ownerKey fi] at hit
            obtain rfl := Option.some.inj hit
            obtain ⟨h1, h2, _⟩ := procItem_facts cfg req env ownerKey fi
            exact recInv_of_facts _ "processing" h1 (by decide) h2
          · rw [getMeta_startCatch cfg ownerKey env.newId _ _ _ _ _ _ _ _
              (getMeta_procTable cfg req env t0 ownerKey fi)] at hit
            obtain rfl := Option.some.inj hit
            exact recInv_err _ _ (procItem_facts cfg req env ownerKey fi).2.1
      · rw [runStart_eq_streamFail cfg req env t0 ownerKey fi hauth hs3 hF
          (by simpa using hS), startCatch_trace] at htr
        simp only [List.mem_append, List.mem_cons, List.mem_singleton,
          List.not_mem_nil, or_false] at htr
        rcases htr with (rfl | rfl | rfl) | rfl
        · rw [getMeta_seedTable cfg req env t0 ownerKey] at hit
          obtain rfl := Option.some.inj hit
          obtain ⟨h1, h2, _⟩ := seedFull_facts cfg req env ownerKey
          exact recInv_of_facts _ "queued" h1 (by decide) h2
        · rw [getMeta_dlTable cfg req env t0 ownerKey] at hit
          obtain rfl := Option.some.inj hit
          obtain ⟨h1, h2, _⟩ := dlItem_facts cfg req env ownerKey
          exact recInv_of_facts _ "downloading" h1 (by decide) h2
        · rw [getMeta_sizeTable cfg req env t0 ownerKey fi] at hit
          obtain rfl := Option.some.inj hit
          obtain ⟨h1, h2, _⟩ := sizeItem_facts cfg req env ownerKey fi
          exact recInv_of_facts _ "downloading" h1 (by decide) h2
        · rw [getMeta_startCatch cfg ownerKey env.newId _ _ _ _ _ _ _ _
            (getMeta_sizeTable cfg req env t0 ownerKey fi)] at hit
          obtain rfl := Option.some.inj hit
          exact recInv_err _ _ (sizeItem_facts cfg req env ownerKey fi).2.1
  · intro t' user' id' b k d h
    unfold presignRoute at h
    rcases ho : ownerKeyFromReq user' with _ | o'
    · simp [ho] at h
    · simp only [ho] at h
      rcases hg : getMeta cfg t' o' id' with _ | item
      · simp [hg] at h
      · simp only [hg] at h
        refine ⟨o', item, rfl, hg, ?_⟩
        by_cases hcond : ((item.lookup "status" == some (.str "done")) &&
          jsAttrTruthy (item.lookup "s3Bucket") &&
          jsAttrTruthy (item.lookup "s3Key")) = true
        · have hst := hcond
          simp only [Bool.and_eq_true, beq_iff_eq] at hst
          exact hst.1.1
        · rw [if_neg hcond] at h
          exact absurd h (by simp)

/-- Witness for C7 at the sample success run. -/
theorem output_location_iff_done_witness :
    (∀ tr ∈ (runStart sampleCfg sampleReq sampleEnvOK []).trace, ∀ it,
      getMeta sampleCfg tr "alice@example.com" sampleEnvOK.newId = some it →
      (outputPopulated it = true ↔ it.lookup "status" = some (.str "done"))) ∧
    (∀ (t' : Table) (user' : Option Claims) (id' b k d : String),
      presignRoute sampleCfg t' user' id' = .ok b k d →
      ∃ o' it, ownerKeyFromReq user' = some o' ∧
        getMeta sampleCfg t' o' id' = some it ∧
        it.lookup "status" = some (.str "done")) :=
  output_location_iff_done sampleCfg sampleReq sampleEnvOK [] "alice@example.com"
    (by decide) (by decide)

end Transcode
